import Mathlib

/-!
Shallow embedding of the Excel editing engine
(`backend/open_webui/routers/excel.py`) and proofs of the specified
properties.

Conventions of the embedding:
* Python strings are Lean `String`s; single-character operations work on
  `String.data`.  All string contents relevant to the claims are ASCII, and
  the embedding of `str.upper` / `str.lower` / `str.strip` is ASCII-faithful.
* Python `int` is `Int`; Python `float` literals are modelled by `PyFloat`
  (exact decimal rationals plus infinities and NaN; the binary rounding a
  real Python `float` performs is abstracted away — no claim depends on it).
* `openpyxl` worksheets are modelled as a list of cells in iteration
  (`iter_rows`) order.  Missing cells read as the `none` value, exactly as
  `openpyxl` yields `None` for empty cells.
* Fallible steps (the `try`/`except` blocks of the source) are modelled by
  explicit failure oracles (`Bool` flags / predicates) so that both the
  success and failure paths of the source are represented.
-/

namespace Excel

/-! ## Python primitive-string helpers -/

/-- Characters stripped by Python's `str.strip()` (the ASCII whitespace set). -/
def isPySpace (c : Char) : Bool :=
  c == ' ' || c == '\t' || c == '\n' || c == '\r' || c == '\x0b' || c == '\x0c'

/-- Python `s.strip()` restricted to ASCII whitespace. -/
def pyStrip (s : String) : String :=
  ⟨((s.data.dropWhile isPySpace).reverse.dropWhile isPySpace).reverse⟩

/-- Python `s.lower()` (ASCII). -/
def pyLower (s : String) : String := ⟨s.data.map Char.toLower⟩

/-- Python `s.upper()` (ASCII). -/
def pyUpper (s : String) : String := ⟨s.data.map Char.toUpper⟩

/-- Continuation of a `digitpart` of the Python numeric-literal grammar:
after the leading digit, digits optionally separated by single
underscores. -/
def isDigitPartRest : List Char → Bool
  | [] => true
  | ['_'] => false
  | '_' :: c :: rest => c.isDigit && isDigitPartRest rest
  | c :: rest => c.isDigit && isDigitPartRest rest

/-- `digitpart` of the Python numeric-literal grammar:
`digit (["_"] digit)*`. -/
def isDigitPart : List Char → Bool
  | [] => false
  | c :: rest => c.isDigit && isDigitPartRest rest

/-- Numeric value of a digit run, ignoring the underscore separators. -/
def digitsVal (l : List Char) : Nat :=
  (l.filter (fun c => c ≠ '_')).foldl (fun acc c => acc * 10 + (c.toNat - '0'.toNat)) 0

/-- Python `int(s)` on a string: optional sign followed by a `digitpart`
(ASCII digits).  Returns `none` where Python raises `ValueError`. -/
def pyParseInt (s : String) : Option Int :=
  let l := (pyStrip s).data
  match l with
  | '+' :: rest => if isDigitPart rest then some (digitsVal rest : Int) else none
  | '-' :: rest => if isDigitPart rest then some (-(digitsVal rest : Int)) else none
  | _ => if isDigitPart l then some (digitsVal l : Int) else none

/-- The value space of Python `float(s)`: finite values are kept as the
exact decimal rational denoted by the literal. -/
inductive PyFloat where
  | finite (q : ℚ)
  | inf
  | negInf
  | nan
deriving DecidableEq, Repr

/-- Split a character list at the first exponent marker (`e`/`E`). -/
def splitAtExp : List Char → List Char × Option (List Char)
  | [] => ([], none)
  | c :: rest =>
    if c == 'e' || c == 'E' then ([], some rest)
    else
      let (m, e) := splitAtExp rest
      (c :: m, e)

/-- Split a character list at the first `.`. -/
def splitAtDot : List Char → List Char × Option (List Char)
  | [] => ([], none)
  | c :: rest =>
    if c == '.' then ([], some rest)
    else
      let (m, e) := splitAtDot rest
      (c :: m, e)

/-- The (finite) numeric part of the Python `float` grammar, without sign:
`(digitpart ["." [digitpart]] | "." digitpart) [("e" | "E") [sign] digitpart]`. -/
def parseNumericLiteral (l : List Char) : Option ℚ :=
  let (mant, expPart) := splitAtExp l
  let (ip, fpOpt) := splitAtDot mant
  let mantOk :=
    match fpOpt with
    | none => isDigitPart ip
    | some fp => (isDigitPart ip && (fp.isEmpty || isDigitPart fp)) ||
        (ip.isEmpty && isDigitPart fp)
  if mantOk then
    let fracDigits := (fpOpt.getD []).filter (fun c => c ≠ '_')
    let num : Int := (digitsVal ip * 10 ^ fracDigits.length + digitsVal fracDigits : Nat)
    let den : Nat := 10 ^ fracDigits.length
    match expPart with
    | none => some (mkRat num den)
    | some e =>
      let (eneg, ebody) :=
        match e with
        | '+' :: r => (false, r)
        | '-' :: r => (true, r)
        | _ => (false, e)
      if isDigitPart ebody then
        some (if eneg then mkRat num (den * 10 ^ digitsVal ebody)
              else mkRat (num * 10 ^ digitsVal ebody) den)
      else none
  else none

/-- Python `float(s)`: optional sign, then `inf`/`infinity`/`nan`
(case-insensitively) or a numeric literal.  Returns `none` where Python
raises `ValueError`. -/
def pyParseFloat (s : String) : Option PyFloat :=
  let l := (pyStrip s).data.map Char.toLower
  let (neg, body) :=
    match l with
    | '+' :: rest => (false, rest)
    | '-' :: rest => (true, rest)
    | _ => (false, l)
  if body == "inf".data || body == "infinity".data then
    some (if neg then PyFloat.negInf else PyFloat.inf)
  else if body == "nan".data then some PyFloat.nan
  else
    match parseNumericLiteral body with
    | some q => some (PyFloat.finite (if neg then -q else q))
    | none => none

/-- Python `s.startswith(p)`. -/
def pyStartsWith (s p : String) : Bool := p.data.isPrefixOf s.data

/-- Python `s.endswith(p)`. -/
def pyEndsWith (s p : String) : Bool := p.data.isSuffixOf s.data

/-! ## Cell values and `_coerce_cell_value` -/

/-- A Python value as stored in a cell or carried by a `CellChange`:
`None`, `str`, `int`, `float` or `bool`. -/
inductive PyVal where
  | none
  | str (s : String)
  | int (n : Int)
  | float (f : PyFloat)
  | bool (b : Bool)
deriving DecidableEq, Repr

/-- `_coerce_cell_value` (excel.py:83-96): non-strings pass through;
a string is stripped, an empty strip passes the original through, and the
stripped text is parsed as `float` when it contains a `.` and as `int`
otherwise, the original string being returned when the parse raises. -/
def coerceCellValue (v : PyVal) : PyVal :=
  match v with
  | .str s =>
    let stripped := pyStrip s
    if stripped == "" then v
    else if stripped.data.contains '.' then
      match pyParseFloat stripped with
      | some f => .float f
      | none => v
    else
      match pyParseInt stripped with
      | some n => .int n
      | none => v
  | _ => v

/-! ## Workbook model -/

/-- `openpyxl.utils.get_column_letter`, bijective base-26 digits of the
1-based column index, most significant first.  The first argument is
fuel; one unit is consumed per digit, so fuel `n` always suffices. -/
def getColumnLetterAux : Nat → Nat → List Char → List Char
  | 0, _, acc => acc
  | _ + 1, 0, acc => acc
  | fuel + 1, n + 1, acc =>
    getColumnLetterAux fuel (n / 26) (Char.ofNat ('A'.toNat + n % 26) :: acc)

/-- `openpyxl.utils.get_column_letter`: column index 1 ↦ `A`, 2 ↦ `B`, …,
27 ↦ `AA`, … -/
def getColumnLetter (n : Nat) : String := ⟨getColumnLetterAux n n []⟩

/-- A worksheet cell: 1-based coordinates and a stored value. -/
structure Cell where
  row : Nat
  col : Nat
  value : PyVal
deriving DecidableEq, Repr

/-- The `A1`-style address of a cell, as the source renders it with
`f"{get_column_letter(cell.column)}{cell.row}"`. -/
def Cell.addr (c : Cell) : String := getColumnLetter c.col ++ toString c.row

/-- A worksheet: its title and its cells in `iter_rows` iteration order. -/
structure Worksheet where
  title : String
  cells : List Cell
deriving DecidableEq, Repr

/-- A workbook-level defined name: its name and its `destinations`
(pairs of sheet title and range string). -/
structure DefinedName where
  name : String
  destinations : List (String × String)
deriving DecidableEq, Repr

/-- A workbook: worksheets in order plus its defined names. -/
structure Workbook where
  sheets : List Worksheet
  definedNames : List DefinedName
deriving DecidableEq, Repr

/-- `wb.sheetnames`. -/
def Workbook.sheetnames (wb : Workbook) : List String := wb.sheets.map (·.title)

/-- `wb[name]`: the callers only index with an existing title; a missing
title yields an empty sheet of that title. -/
def Workbook.sheet (wb : Workbook) (name : String) : Worksheet :=
  (wb.sheets.find? (fun ws => ws.title == name)).getD ⟨name, []⟩

/-- `ws.cell(row=r, column=c).value`: `openpyxl` materialises missing cells
with value `None`. -/
def Worksheet.cellValue (ws : Worksheet) (r c : Nat) : PyVal :=
  match ws.cells.find? (fun cl => cl.row == r && cl.col == c) with
  | some cl => cl.value
  | none => .none

/-- `ws.cell(row=r, column=c).value = v`: updates the cell in place,
materialising it when absent. -/
def Worksheet.setCellValue (ws : Worksheet) (r c : Nat) (v : PyVal) : Worksheet :=
  if ws.cells.any (fun cl => cl.row == r && cl.col == c) then
    { ws with cells := ws.cells.map (fun cl =>
        if cl.row == r && cl.col == c then { cl with value := v } else cl) }
  else
    { ws with cells := ws.cells ++ [⟨r, c, v⟩] }

/-! ## `CellChange` and `_apply_worksheet_changes` -/

/-- `CellChange` (excel.py:235-241). -/
structure CellChange where
  row : Int
  col : Int
  value : PyVal := .none
  isFormula : Bool := false
  forceOverwriteFormula : Bool := false
deriving DecidableEq, Repr

instance : Inhabited CellChange := ⟨⟨0, 0, .none, false, false⟩⟩

/-- Whether `change.value` is a string starting with `=`
(`isinstance(change.value, str) and change.value.startswith("=")`). -/
def isFormulaText (v : PyVal) : Bool :=
  match v with
  | .str s => pyStartsWith s "="
  | _ => false

/-- The two `continue` guards of the loop of `_apply_worksheet_changes`:
a change is skipped without error when its coordinates are below 1 or its
value is the empty/`None` value. -/
def skipsChange (ch : CellChange) : Bool :=
  ch.row < 1 || ch.col < 1 || ch.value == .none

/-- One iteration of the loop of `_apply_worksheet_changes`
(excel.py:102-138).  `fails` models the per-change `try`/`except`: when it
is `true` the write raises, the exception is caught and logged, nothing is
written and nothing is counted.  Returns the worksheet and the contribution
to `changes_applied`. -/
def applyOneChange (ws : Worksheet) (ch : CellChange) (fails : Bool) :
    Worksheet × Nat :=
  if ch.row < 1 || ch.col < 1 then (ws, 0)
  else if ch.value == .none then (ws, 0)
  else if fails then (ws, 0)
  else
    let v := if ch.isFormula && isFormulaText ch.value then ch.value
             else coerceCellValue ch.value
    (ws.setCellValue ch.row.toNat ch.col.toNat v, 1)

/-- The loop of `_apply_worksheet_changes`, threading the worksheet and the
index into the failure oracle. -/
def applyWorksheetChangesAux (ws : Worksheet) (changes : List CellChange)
    (fails : Nat → Bool) (i : Nat) : Worksheet × Nat :=
  match changes with
  | [] => (ws, 0)
  | ch :: rest =>
    let r1 := applyOneChange ws ch (fails i)
    let r2 := applyWorksheetChangesAux r1.1 rest fails (i + 1)
    (r2.1, r1.2 + r2.2)

/-- `_apply_worksheet_changes` (excel.py:99-140) with an explicit failure
oracle for the per-change `try`/`except`. -/
def applyWorksheetChanges (ws : Worksheet) (changes : List CellChange)
    (fails : Nat → Bool) : Worksheet × Nat :=
  applyWorksheetChangesAux ws changes fails 0

/-! ## QC issues and `_build_qc_report` -/

/-- `ExcelQcIssue` (excel.py:264-271). -/
structure ExcelQcIssue where
  sheet : String
  cell : String
  severity : String
  issueType : String
  message : String
  originalFormula : Option String := none
  repairedFormula : Option String := none
deriving DecidableEq, Repr

/-- `ExcelQcReport` (excel.py:274-279). -/
structure ExcelQcReport where
  blocked : Bool
  blockReason : String
  criticalUnresolved : Nat
  issues : List ExcelQcIssue
  recommendedActions : List String
deriving DecidableEq, Repr

/-- The remediation checklist of `_build_qc_report`. -/
def qcRecommendedActions (operation : String) : List String :=
  ["Review impacted formulas and referenced ranges before retrying.",
   "Fix invalid references (#REF!, #NAME?, #VALUE!) in the listed cells.",
   "Retry the " ++ operation ++ " after correcting the workbook formulas."]

/-- `_build_qc_report` (excel.py:308-330). -/
def buildQcReport (issues : List ExcelQcIssue) (operation : String) :
    ExcelQcReport :=
  let critical := issues.filter (fun i => i.severity == "critical")
  let blocked : Bool := decide (0 < critical.length)
  { blocked := blocked
    blockReason :=
      if blocked then "QC blocked: unresolved formula integrity issues"
      else "No blocking quality issues detected"
    criticalUnresolved := critical.length
    issues := issues.take 50
    recommendedActions := if blocked then qcRecommendedActions operation else [] }

/-! ## `_parse_cell_references_from_formula`

The source applies `re.findall` with the pattern

  `(?:'[^']+'!|\w+!)?\$?[A-Z]{1,3}\$?\d+(?::\$?[A-Z]{1,3}\$?\d+)?`

to `formula.upper()`.  The scanner below reproduces the leftmost,
non-overlapping `findall` semantics of that pattern.  Backtracking
collapses at every choice point of this particular pattern:
`[^']+` cannot cross the closing quote, so only its maximal span can be
followed by `'!`; `!` is not a word character, so only the maximal `\w+`
span can be followed by `!`; a `$` in the input must be consumed by `\$?`
because `[A-Z]` cannot match it; and when `[A-Z]{1,3}` stops short of the
available letter run, the next character is a letter which `\$?\d+` cannot
match, so only the greedy (up to 3) letter take can succeed.  The
alternation order (quoted sheet, then bare word, then no prefix) is kept.
-/

/-- `\w` of the pattern (applied to upper-cased ASCII text). -/
def isWordChar (c : Char) : Bool := c.isAlphanum || c == '_'

/-- Sheet-qualifier alternatives `'[^']+'!` and `\w+!` of the pattern,
tried in that order; returns the consumed characters and the remainder. -/
def matchSheetQual (l : List Char) : Option (List Char × List Char) :=
  match l with
  | '\'' :: rest =>
    let inner := rest.takeWhile (fun c => c ≠ '\'')
    if inner.isEmpty then none
    else
      match rest.drop inner.length with
      | '\'' :: '!' :: rem => some ('\'' :: (inner ++ ['\'', '!']), rem)
      | _ => none
  | _ =>
    let w := l.takeWhile isWordChar
    if w.isEmpty then none
    else
      match l.drop w.length with
      | '!' :: rem => some (w ++ ['!'], rem)
      | _ => none

/-- `[A-Z]{k}\$?\d+` for a fixed letter count `k`. -/
def matchCellTail (l : List Char) (k : Nat) : Option (List Char × List Char) :=
  let letters := l.take k
  if letters.length == k && letters.all Char.isUpper then
    let l2 := l.drop k
    let (dollar, l3) :=
      match l2 with
      | '$' :: rest => (['$'], rest)
      | _ => (([] : List Char), l2)
    let digits := l3.takeWhile Char.isDigit
    if digits.isEmpty then none
    else some (letters ++ dollar ++ digits, l3.drop digits.length)
  else none

/-- `[A-Z]{1,3}\$?\d+`, greedy in the letter count. -/
def matchCellCore (l : List Char) : Option (List Char × List Char) :=
  match matchCellTail l 3 with
  | some r => some r
  | none =>
    match matchCellTail l 2 with
    | some r => some r
    | none => matchCellTail l 1

/-- `\$?[A-Z]{1,3}\$?\d+` (one single-cell coordinate of the pattern). -/
def matchCellPart (l : List Char) : Option (List Char × List Char) :=
  match l with
  | '$' :: rest => (matchCellCore rest).map (fun r => ('$' :: r.1, r.2))
  | _ => matchCellCore l

/-- The optional `(?::\$?[A-Z]{1,3}\$?\d+)?` range tail. -/
def matchRangeTail (l : List Char) : Option (List Char × List Char) :=
  match l with
  | ':' :: rest => (matchCellPart rest).map (fun r => (':' :: r.1, r.2))
  | _ => none

/-- One attempted match of the whole pattern at the current position. -/
def matchRefAt (l : List Char) : Option (List Char × List Char) :=
  let base :=
    match matchSheetQual l with
    | some (pm, rem) =>
      match matchCellPart rem with
      | some (cm, rem2) => some (pm ++ cm, rem2)
      | none =>
        -- the prefix alternatives are exhausted; fall back to no prefix
        matchCellPart l
    | none => matchCellPart l
  match base with
  | some (m, rem) =>
    match matchRangeTail rem with
    | some (tm, rem2) => some (m ++ tm, rem2)
    | none => some (m, rem)
  | none => none

/-- `re.findall` over the text: scan left to right, emitting each
non-overlapping match.  `fuel` bounds the recursion; it is instantiated
with the text length, which suffices because every match is non-empty. -/
def findRefsAux : Nat → List Char → List (List Char)
  | 0, _ => []
  | _ + 1, [] => []
  | fuel + 1, c :: rest =>
    match matchRefAt (c :: rest) with
    | some (m, rem) => m :: findRefsAux fuel rem
    | none => findRefsAux fuel rest

/-- `_parse_cell_references_from_formula` (excel.py:947-956): run the
pattern over the upper-cased formula. -/
def parseCellReferencesFromFormula (formula : String) : List String :=
  let u := formula.data.map Char.toUpper
  (findRefsAux u.length u).map (fun cs => (⟨cs⟩ : String))

/-! ## `_expand_range` and its `openpyxl` helpers

`coordinate_from_string` and `column_index_from_string` are `openpyxl`
library code (not part of this repository); they are modelled from the
library's documented behaviour: `coordinate_from_string` matches
`^[$]?([A-Za-z]{1,3})[$]?(\d+)$`, rejects row `0` and returns the
upper-cased letters and the row; `column_index_from_string` maps the
upper-cased letters of a 1-to-3-letter column name to its 1-based index. -/

/-- `openpyxl.utils.cell.coordinate_from_string`, returning `none` where
the library raises. -/
def coordinateFromString (s : String) : Option (String × Nat) :=
  let l := s.data
  let l1 := match l with
    | '$' :: r => r
    | _ => l
  let letters := l1.takeWhile Char.isAlpha
  if letters.length == 0 || 3 < letters.length then none
  else
    let l2 := l1.drop letters.length
    let l3 := match l2 with
      | '$' :: r => r
      | _ => l2
    let digits := l3.takeWhile Char.isDigit
    if digits.isEmpty || !(l3.drop digits.length).isEmpty then none
    else
      let row := digitsVal digits
      if row == 0 then none
      else some ((⟨letters.map Char.toUpper⟩ : String), row)

/-- `openpyxl.utils.column_index_from_string`, returning `none` where the
library raises. -/
def columnIndexFromString (s : String) : Option Nat :=
  let l := s.data.map Char.toUpper
  if l.length == 0 || 3 < l.length || !l.all Char.isUpper then none
  else some (l.foldl (fun acc c => acc * 26 + (c.toNat - 'A'.toNat + 1)) 0)

/-- Python `s.split('!')[-1]`: the suffix after the last `!`. -/
def splitBangLast (s : String) : String :=
  ⟨(s.data.reverse.takeWhile (fun c => c ≠ '!')).reverse⟩

/-- Python `s.split(':')`. -/
def splitColon (l : List Char) : List (List Char) :=
  match l with
  | [] => [[]]
  | c :: rest =>
    let parts := splitColon rest
    if c == ':' then [] :: parts
    else
      match parts with
      | p :: ps => (c :: p) :: ps
      | [] => [[c]]

/-- The `try` body of `_expand_range`: split at `:` into exactly two
coordinates, resolve both corners, and enumerate the row-major cross
product `range(start_row, end_row + 1) × range(start_col, end_col + 1)`.
`none` models the exception path. -/
def expandRangeCore (s : String) : Option (List String) :=
  match splitColon s.data with
  | [a, b] =>
    match coordinateFromString (⟨a⟩ : String), coordinateFromString (⟨b⟩ : String) with
    | some (startCol, startRow), some (endCol, endRow) =>
      match columnIndexFromString startCol, columnIndexFromString endCol with
      | some startIdx, some endIdx =>
        some ((List.range' startRow (endRow + 1 - startRow)).flatMap (fun r =>
          (List.range' startIdx (endIdx + 1 - startIdx)).map (fun c =>
            getColumnLetter c ++ toString r)))
      | _, _ => none
    | _, _ => none
  | _ => none

/-- The reassignments of `range_str` performed by `_expand_range` before
the `try` block: drop the sheet qualifier (`split('!')[-1]`) and remove
every `$`. -/
def strippedRange (rangeStr : String) : String :=
  let r1 := if rangeStr.data.contains '!' then splitBangLast rangeStr else rangeStr
  ⟨r1.data.filter (fun c => c ≠ '$')⟩

/-- `_expand_range` (excel.py:959-991): inputs without `:` are returned
as-is; otherwise the sheet qualifier and the `$` markers are removed
first, and a failure of the expansion returns that stripped string as a
single-element list. -/
def expandRange (rangeStr : String) : List String :=
  if !rangeStr.data.contains ':' then [rangeStr]
  else
    match expandRangeCore (strippedRange rangeStr) with
    | some cells => cells
    | none => [strippedRange rangeStr]

/-! ## Sheet-name normalisation -/

/-- Python `s.replace("''", "'")` — the only `replace` the source uses:
left-to-right, non-overlapping occurrences. -/
def unescapeQuotes : List Char → List Char
  | [] => []
  | '\'' :: '\'' :: rest => '\'' :: unescapeQuotes rest
  | c :: rest => c :: unescapeQuotes rest

/-- `_normalize_sheet_name` (excel.py:994-998). -/
def normalizeSheetName (s : String) : String :=
  let n := pyStrip s
  if pyStartsWith n "'" && pyEndsWith n "'" && decide (2 ≤ n.length) then
    (⟨unescapeQuotes ((n.data.drop 1).dropLast)⟩ : String)
  else n

/-- `_split_sheet_and_range` (excel.py:1001-1006). -/
def splitSheetAndRange (reference defaultSheet : String) : String × String :=
  if reference.data.contains '!' then
    let pre := reference.data.takeWhile (fun c => c ≠ '!')
    let post := reference.data.drop (pre.length + 1)
    (normalizeSheetName (⟨pre⟩ : String), (⟨post⟩ : String))
  else (defaultSheet, reference)

/-- Python string `<`: strict lexicographic comparison of the code-point
sequences. -/
def pyStrLtChars : List Char → List Char → Bool
  | [], [] => false
  | [], _ :: _ => true
  | _ :: _, [] => false
  | a :: as, b :: bs =>
    if a < b then true else if b < a then false else pyStrLtChars as bs

/-- Python string `<=` (the comparison `sorted` uses). -/
def pyStrLe (a b : String) : Bool := !(pyStrLtChars b.data a.data)

/-- Python `sorted(set(l))` on strings: the ascending enumeration of the
distinct elements. -/
def pySortedSet (l : List String) : List String :=
  List.insertionSort (fun a b => pyStrLe a b = true) l.dedup

/-! ## `_run_formula_qc_and_repairs` -/

/-- Python `formula.lstrip("=")`. -/
def lstripEq (s : String) : String := ⟨s.data.dropWhile (fun c => c = '=')⟩

/-- The case-insensitive `#REF!|#NAME\?|#VALUE!` search of the scanner. -/
def containsInvalidToken (s : String) : Bool :=
  let u := (pyLower s).data
  decide ("#ref!".data <:+: u) || decide ("#name?".data <:+: u) ||
    decide ("#value!".data <:+: u)

/-- The missing-sheet names collected for one formula: for every parsed
reference carrying a `!`, normalise the sheet part; keep it when its
lower-cased form is not a sheet of the workbook.  `sorted(missing_sheets)`
of the source is the sorted deduplication. -/
def missingSheetsOf (sheetsLower : List String) (repairedFormula : String) :
    List String :=
  pySortedSet ((parseCellReferencesFromFormula repairedFormula).filterMap
    (fun ref =>
      if ref.data.contains '!' then
        let normalized := normalizeSheetName (⟨ref.data.takeWhile (fun c => c ≠ '!')⟩ : String)
        if sheetsLower.contains (pyLower normalized) then none
        else some normalized
      else none))

/-- The per-formula-cell body of the scan loop of
`_run_formula_qc_and_repairs` (excel.py:402-475): issues contributed by
this cell, its contribution to `repairs_applied`, and the cell's new
formula text. -/
def qcFormulaCell (sheetsLower : List String) (sheetName : String)
    (c : Cell) (formula : String) : List ExcelQcIssue × Nat × String :=
  let repairedPair :=
    if pyStartsWith formula "==" then ("=" ++ lstripEq formula, true)
    else (formula, false)
  let repairedFormula := repairedPair.1
  let repaired := repairedPair.2
  let repairedField : Option String :=
    if repaired then some repairedFormula else none
  let parenIssues :=
    if repairedFormula.data.count '(' ≠ repairedFormula.data.count ')' then
      [{ sheet := sheetName, cell := c.addr, severity := "critical"
         issueType := "unbalanced_parentheses"
         message := "Formula has unbalanced parentheses."
         originalFormula := some formula
         repairedFormula := repairedField : ExcelQcIssue }]
    else []
  let tokenIssues :=
    if containsInvalidToken repairedFormula then
      [{ sheet := sheetName, cell := c.addr, severity := "critical"
         issueType := "invalid_reference_token"
         message := "Formula contains an invalid Excel error token."
         originalFormula := some formula
         repairedFormula := repairedField : ExcelQcIssue }]
    else []
  let missingIssues :=
    (missingSheetsOf sheetsLower repairedFormula).map (fun missingSheet =>
      { sheet := sheetName, cell := c.addr, severity := "critical"
        issueType := "missing_sheet_reference"
        message := "Formula references a sheet that does not exist: '" ++
          missingSheet ++ "'."
        originalFormula := some formula
        repairedFormula := repairedField : ExcelQcIssue })
  let repairStep :=
    if repaired && repairedFormula ≠ formula then
      ([{ sheet := sheetName, cell := c.addr, severity := "warning"
          issueType := "auto_repaired_formula_prefix"
          message := "Auto-repaired malformed formula prefix."
          originalFormula := some formula
          repairedFormula := some repairedFormula : ExcelQcIssue }],
        1, repairedFormula)
    else ([], 0, formula)
  (parenIssues ++ tokenIssues ++ missingIssues ++ repairStep.1,
    repairStep.2.1, repairStep.2.2)

/-- The scan step for an arbitrary cell: only string values starting with
`=` are treated as formulas; all other cells are untouched and contribute
nothing. -/
def qcCellStep (sheetsLower : List String) (sheetName : String) (c : Cell) :
    List ExcelQcIssue × Nat × Cell :=
  match c.value with
  | .str v =>
    if pyStartsWith v "=" then
      let r := qcFormulaCell sheetsLower sheetName c v
      (r.1, r.2.1, { c with value := .str r.2.2 })
    else ([], 0, c)
  | _ => ([], 0, c)

/-- The scan of one worksheet. -/
def qcSheet (sheetsLower : List String) (ws : Worksheet) :
    List ExcelQcIssue × Nat × Worksheet :=
  let results := ws.cells.map (qcCellStep sheetsLower ws.title)
  (results.flatMap (·.1), (results.map (fun r => r.2.1)).sum,
    { ws with cells := results.map (·.2.2) })

/-- `_run_formula_qc_and_repairs` (excel.py:388-477).  `sheets_by_lower`
is consulted only through key membership, so it is modelled by the list of
lower-cased sheet titles (computed once, before any repair).  Each cell's
contribution depends only on its own pre-scan value, so the in-place
mutation of the source is modelled by rebuilding the workbook. -/
def runFormulaQcAndRepairs (wb : Workbook) :
    List ExcelQcIssue × Nat × Workbook :=
  let sheetsLower := wb.sheets.map (fun ws => pyLower ws.title)
  let results := wb.sheets.map (qcSheet sheetsLower)
  (results.flatMap (·.1), (results.map (fun r => r.2.1)).sum,
    { wb with sheets := results.map (·.2.2) })

/-! ## Preflight analyzer -/

/-- `CellReference` (excel.py:913-918). -/
structure CellReference where
  sheet : String
  row : Int
  col : Int
  address : String
deriving DecidableEq, Repr

/-- The `details` payloads of `CellWarning`, flattened: `overwrite_allowed`
defaults to `false`, matching the falsy `details.get("overwrite_allowed")`
on warnings that do not carry the key. -/
structure WarningDetails where
  overwrite_allowed : Bool := false
  current_formula : String := ""
  referenced_by : List String := []
  total_references : Nat := 0
  named_range : String := ""
deriving DecidableEq, Repr

/-- `CellWarning` (excel.py:921-926). -/
structure CellWarning where
  cell : CellReference
  warning_type : String
  message : String
  details : WarningDetails := {}
deriving DecidableEq, Repr

/-- `ExcelValidationResponse` (excel.py:939-944). -/
structure ExcelValidationResponse where
  status : String
  warnings : List CellWarning
  safe_to_apply : Bool
  message : String
deriving DecidableEq, Repr

/-- Insertion into the `changing_cells` dict: an existing key keeps its
position and takes the new change, a new key is appended. -/
def dictInsert (acc : List (String × CellChange)) (addr : String)
    (ch : CellChange) : List (String × CellChange) :=
  if acc.any (fun p => p.1 == addr) then
    acc.map (fun p => if p.1 == addr then (addr, ch) else p)
  else acc ++ [(addr, ch)]

/-- One iteration of the `changing_cells` loop (excel.py:1017-1021):
changes with a row or column below 1 are dropped, the rest are keyed by
their `A1`-style address. -/
def changingStep (acc : List (String × CellChange)) (ch : CellChange) :
    List (String × CellChange) :=
  if ch.row < 1 || ch.col < 1 then acc
  else dictInsert acc (getColumnLetter ch.col.toNat ++ toString ch.row.toNat) ch

/-- The `changing_cells` dict of `_collect_preflight_warnings`
(excel.py:1016-1021), in insertion order. -/
def changingCellsOf (changes : List CellChange) : List (String × CellChange) :=
  changes.foldl changingStep []

/-- Check 1 of `_collect_preflight_warnings` (excel.py:1024-1042): a
`contains_formula` warning for every target whose current value is a
formula. -/
def check1Warnings (wb : Workbook) (sheetName : String)
    (cc : List (String × CellChange)) : List CellWarning :=
  cc.filterMap (fun p =>
    match (wb.sheet sheetName).cellValue p.2.row.toNat p.2.col.toNat with
    | .str s =>
      if pyStartsWith s "=" then
        some { cell := ⟨sheetName, p.2.row, p.2.col, p.1⟩
               warning_type := "contains_formula"
               message := "Cell " ++ p.1 ++ " contains a formula that will be overwritten"
               details := { overwrite_allowed := p.2.forceOverwriteFormula
                            current_formula := s } }
      else none
    | _ => none)

/-- The `source_addr` check 2 records for a referencing formula cell:
prefixed with its sheet title when that sheet is not the target sheet
(after normalization and lower-casing). -/
def sourceAddrOf (targetSheetNormalized : String) (fws : Worksheet)
    (c : Cell) : String :=
  if pyLower (normalizeSheetName fws.title) != targetSheetNormalized then
    fws.title ++ "!" ++ c.addr
  else c.addr

/-- `expanded_addr.replace("$", "")` — the cleaned single-cell address
used as the `referenced_by` key. -/
def cleanAddr (s : String) : String := ⟨s.data.filter (fun c => c ≠ '$')⟩

/-- The `(clean_addr, source_addr)` pairs one parsed reference of one
formula cell contributes to `referenced_by` (the two innermost loops of
check 2, excel.py:1056-1067). -/
def refHits (targetSheetNormalized : String) (changingAddrs : List String)
    (fws : Worksheet) (c : Cell) (ref : String) : List (String × String) :=
  let sr := splitSheetAndRange ref fws.title
  if pyLower (normalizeSheetName sr.1) == targetSheetNormalized then
    (expandRange sr.2).filterMap (fun expandedAddr =>
      if changingAddrs.contains (cleanAddr expandedAddr) then
        some (cleanAddr expandedAddr,
          sourceAddrOf targetSheetNormalized fws c)
      else none)
  else []

/-- The pairs one cell contributes to `referenced_by`: nothing unless its
value is formula text. -/
def cellRefSources (targetSheetNormalized : String)
    (changingAddrs : List String) (fws : Worksheet) (c : Cell) :
    List (String × String) :=
  match c.value with
  | .str s =>
    if pyStartsWith s "=" then
      (parseCellReferencesFromFormula s).flatMap
        (refHits targetSheetNormalized changingAddrs fws c)
    else []
  | _ => []

/-- The traversal stream of check 2 (excel.py:1044-1067): every
`(clean_addr, source_addr)` pair appended to `referenced_by`, in loop
order.  The per-address lists of the source are the per-key filters of
this stream. -/
def referenceSources (wb : Workbook) (targetSheetNormalized : String)
    (changingAddrs : List String) : List (String × String) :=
  wb.sheets.flatMap (fun fws =>
    fws.cells.flatMap (cellRefSources targetSheetNormalized changingAddrs fws))

/-- The `referenced_by_formula` warning check 2 emits for one target
address from its (non-empty) list of referencing sources. -/
def mkReferencedWarning (sheetName : String) (p : String × CellChange)
    (referencing : List String) : CellWarning :=
  let uniqueRefs := pySortedSet referencing
  { cell := ⟨sheetName, p.2.row, p.2.col, p.1⟩
    warning_type := "referenced_by_formula"
    message := "Cell " ++ p.1 ++ " is referenced by " ++
      toString uniqueRefs.length ++ " formula(s)"
    details := { referenced_by := uniqueRefs.take 10
                 total_references := uniqueRefs.length } }

/-- Check 2 of `_collect_preflight_warnings` (excel.py:1044-1090). -/
def check2Warnings (wb : Workbook) (sheetName : String)
    (cc : List (String × CellChange)) : List CellWarning :=
  let targetNorm := pyLower (normalizeSheetName sheetName)
  let sources := referenceSources wb targetNorm (cc.map (·.1))
  cc.filterMap (fun p =>
    let referencing := (sources.filter (fun q => q.1 == p.1)).map (·.2)
    if referencing.isEmpty then none
    else some (mkReferencedWarning sheetName p referencing))

/-- Check 3 of `_collect_preflight_warnings` (excel.py:1092-1132): the
defined-name destinations matching the target sheet. -/
def check3Warnings (wb : Workbook) (sheetName : String)
    (cc : List (String × CellChange)) : List CellWarning :=
  let targetNorm := pyLower (normalizeSheetName sheetName)
  wb.definedNames.flatMap (fun dn =>
    dn.destinations.flatMap (fun dest =>
      if pyLower (normalizeSheetName dest.1) == targetNorm then
        (expandRange dest.2).filterMap (fun expandedAddr =>
          (cc.find? (fun p => p.1 == cleanAddr expandedAddr)).map (fun p =>
            { cell := ⟨sheetName, p.2.row, p.2.col, cleanAddr expandedAddr⟩
              warning_type := "in_named_range"
              message := "Cell " ++ cleanAddr expandedAddr ++
                " is part of named range '" ++ dn.name ++ "'"
              details := { named_range := dn.name } }))
      else []))

/-- `_collect_preflight_warnings` (excel.py:1009-1134). -/
def collectPreflightWarnings (wb : Workbook) (sheetName : String)
    (changes : List CellChange) : List CellWarning :=
  let cc := changingCellsOf changes
  check1Warnings wb sheetName cc ++ check2Warnings wb sheetName cc ++
    check3Warnings wb sheetName cc

/-- One iteration of the warning loop of `_build_preflight_report`
(excel.py:1146-1157), accumulating
`(blocked_by_formula_overwrite, blocked_by_formula_reference)`. -/
def preflightWarningStep
    (strictFormulaMode blockReferencedByFormula allowFormulaOverwrite : Bool)
    (acc : Bool × Bool) (w : CellWarning) : Bool × Bool :=
  let overwriteAllowed := w.details.overwrite_allowed || allowFormulaOverwrite
  if w.warning_type == "contains_formula" then
    (acc.1 || (strictFormulaMode && !overwriteAllowed), acc.2)
  else if w.warning_type == "referenced_by_formula" then
    (acc.1, acc.2 || blockReferencedByFormula)
  else acc

/-- The warning loop of `_build_preflight_report` (excel.py:1143-1157). -/
def preflightBlockFlags (warnings : List CellWarning)
    (strictFormulaMode blockReferencedByFormula allowFormulaOverwrite : Bool) :
    Bool × Bool :=
  warnings.foldl
    (preflightWarningStep strictFormulaMode blockReferencedByFormula
      allowFormulaOverwrite) (false, false)

/-- `_build_preflight_report` (excel.py:1137-1179). -/
def buildPreflightReport (warnings : List CellWarning)
    (strictFormulaMode blockReferencedByFormula allowFormulaOverwrite : Bool) :
    ExcelValidationResponse :=
  let flags := preflightBlockFlags warnings strictFormulaMode
    blockReferencedByFormula allowFormulaOverwrite
  let safeToApply := !(flags.1 || flags.2)
  let message :=
    if safeToApply then
      if warnings.isEmpty then "No warnings - safe to apply"
      else "Found " ++ toString warnings.length ++ " warning(s)"
    else
      "Blocked by preflight: " ++ String.intercalate ", "
        ((if flags.1 then ["attempted overwrite of existing formula cells"] else []) ++
         (if flags.2 then ["changes impact cells referenced by formulas"] else []))
  { status := if safeToApply then "ok" else "blocked"
    warnings := warnings
    safe_to_apply := safeToApply
    message := message }

/-! ## `_persist_workbook_atomically`

The file-system state relevant to the function is the content of
`target_path` and the existence/content of the temporary and backup
files.  Contents are abstract (`α`).  Failures of the individual steps are
injected through `PersistFlags`; `os.replace` is atomic at the OS level,
so a failed rename leaves the target untouched, and a whole-file copy
(`shutil.copy2`) either installs the full source content or, on failure,
leaves the destination as it was.  Writes of partial data to
`target_path` cannot occur: the serialization only ever touches the
temporary file. -/

/-- The observable on-disk state around one `_persist_workbook_atomically`
call: content of `target_path`, and contents of the temporary and backup
files when they exist. -/
structure FsState (α : Type) where
  target : α
  tmp : Option α
  backup : Option α
deriving DecidableEq

/-- Failure injection for each fallible step of the function. -/
structure PersistFlags where
  saveOk : Bool
  calcOk : Bool
  verifyOk : Bool
  backupOk : Bool
  renameOk : Bool
  restoreOk : Bool
  cleanupTmpOk : Bool
  cleanupBackupOk : Bool
deriving DecidableEq, Repr

/-- Outcome of the call: normal return, or the exception propagated from
the named step. -/
inductive PersistResult where
  | ok
  | error (step : String)
deriving DecidableEq, Repr

/-- A run of `_persist_workbook_atomically`: outcome, final file-system
state, and the sequence of contents `target_path` held at the successive
observable points of the call. -/
structure PersistRun (α : Type) where
  result : PersistResult
  fs : FsState α
  targetTrace : List α
deriving DecidableEq

/-- The `finally` block (excel.py:178-184): best-effort deletion of the
temporary and backup files; failures are suppressed and the outcome of the
earlier steps is untouched. -/
def persistCleanup {α : Type} (f : PersistFlags) (fs : FsState α) : FsState α :=
  let fs1 := if fs.tmp.isSome && f.cleanupTmpOk then
    { fs with tmp := (none : Option α) } else fs
  if fs1.backup.isSome && f.cleanupBackupOk then
    { fs1 with backup := (none : Option α) } else fs1

/-- `_persist_workbook_atomically` (excel.py:143-184).
`old` is the content of `target_path` at entry, `saved` the serialization
`wb.save` writes to the temporary file, and `strip` the rewrite performed
by `_remove_calc_chain_if_present`.  Step order: save to temp, strip the
calc chain, verify-load the temp file, back up the target, atomically
rename the temp file onto the target (restoring from the backup
best-effort when the rename raises), then best-effort cleanup. -/
def persistWorkbookAtomically {α : Type} (old saved : α) (strip : α → α)
    (f : PersistFlags) : PersistRun α :=
  let run : PersistRun α :=
    if !f.saveOk then
      -- `wb.save(tmp_path)` raised: target never touched
      ⟨.error "save", ⟨old, none, none⟩, [old, old]⟩
    else if !f.calcOk then
      -- `_remove_calc_chain_if_present` raised: its own replace is atomic,
      -- the temp file keeps the saved serialization, target untouched
      ⟨.error "remove_calc_chain", ⟨old, some saved, none⟩, [old, old]⟩
    else if !f.verifyOk then
      -- the verifying re-load raised: abort before the target is touched
      ⟨.error "verify_load", ⟨old, some (strip saved), none⟩, [old, old]⟩
    else if !f.backupOk then
      -- `shutil.copy2(file_path, backup_path)` raised: target untouched
      ⟨.error "copy_backup", ⟨old, some (strip saved), none⟩, [old, old]⟩
    else if !f.renameOk then
      -- `os.replace` raised: atomic, so the target still holds `old`;
      -- the best-effort restore re-copies the backup (whose content is
      -- `old`) over the target, then the original failure is re-raised
      let afterRestore := if f.restoreOk then old else old
      ⟨.error "atomic_rename", ⟨afterRestore, some (strip saved), some old⟩,
        [old, old, afterRestore]⟩
    else
      -- success: the verified temp content is renamed onto the target
      ⟨.ok, ⟨strip saved, none, some old⟩, [old, strip saved]⟩
  { run with fs := persistCleanup f run.fs }

/-! ## Concrete documents used by the examples of the specification -/

/-- Single-sheet workbook whose `A1` holds the formula `=SUM(B1:B2)`. -/
def formulaCellWb : Workbook :=
  ⟨[⟨"Sheet1", [⟨1, 1, .str "=SUM(B1:B2)"⟩]⟩], []⟩

/-- A plain value change to `A1` with no per-change force flag. -/
def plainA1Change : CellChange := ⟨1, 1, .int 5, false, false⟩

/-- The same change to `A1` with `forceOverwriteFormula` set. -/
def forcedA1Change : CellChange := ⟨1, 1, .int 5, false, true⟩

/-! ## Helper lemmas -/

theorem preflightWarningStep_eq (s b a : Bool) (acc : Bool × Bool)
    (w : CellWarning) :
    preflightWarningStep s b a acc w =
      (acc.1 || (w.warning_type == "contains_formula" &&
          (s && !(w.details.overwrite_allowed || a))),
       acc.2 || (w.warning_type == "referenced_by_formula" && b)) := by
  by_cases h1 : w.warning_type = "contains_formula"
  · simp [preflightWarningStep, h1]
  · by_cases h2 : w.warning_type = "referenced_by_formula"
    · simp [preflightWarningStep, h1, h2]
    · have e1 : (w.warning_type == "contains_formula") = false :=
        beq_eq_false_iff_ne.mpr h1
      have e2 : (w.warning_type == "referenced_by_formula") = false :=
        beq_eq_false_iff_ne.mpr h2
      simp [preflightWarningStep, e1, e2]

theorem preflightBlockFlags_eq (w : List CellWarning) (s b a : Bool) :
    preflightBlockFlags w s b a =
      (w.any (fun wr => wr.warning_type == "contains_formula" &&
          (s && !(wr.details.overwrite_allowed || a))),
       w.any (fun wr => wr.warning_type == "referenced_by_formula" && b)) := by
  suffices h : ∀ (x y : Bool),
      w.foldl (preflightWarningStep s b a) (x, y) =
      (x || w.any (fun wr => wr.warning_type == "contains_formula" &&
          (s && !(wr.details.overwrite_allowed || a))),
       y || w.any (fun wr => wr.warning_type == "referenced_by_formula" && b)) by
    simpa [preflightBlockFlags] using h false false
  induction w with
  | nil => intro x y; simp
  | cons wr rest ih =>
    intro x y
    rw [List.foldl_cons, preflightWarningStep_eq, ih]
    simp [Bool.or_assoc]

theorem buildPreflightReport_safe_eq (w : List CellWarning) (s b a : Bool) :
    (buildPreflightReport w s b a).safe_to_apply =
      !(w.any (fun wr => wr.warning_type == "contains_formula" &&
          (s && !(wr.details.overwrite_allowed || a))) ||
        w.any (fun wr => wr.warning_type == "referenced_by_formula" && b)) := by
  simp [buildPreflightReport, preflightBlockFlags_eq]

theorem any_filter_of_imp {α : Type} (l : List α) (p q : α → Bool)
    (h : ∀ x, q x = true → p x = true) :
    (l.filter p).any q = l.any q := by
  induction l with
  | nil => rfl
  | cons x xs ih =>
    by_cases hx : p x = true
    · simp [List.filter_cons, hx, ih]
    · have hq : q x = false := by
        cases hq : q x
        · rfl
        · exact absurd (h x hq) hx
      simp [List.filter_cons, hx, hq, ih]

/-! ## Claim theorems -/

/-- C1: if `_persist_workbook_atomically` fails at the temporary-file
verification step or at the atomic-rename step, the error is propagated
and the target path afterwards holds exactly the bytes it held before the
call (a rename failure restores from the backup before re-raising); on a
normal return the target holds the new, verifier-accepted serialization;
at no observable point does the target hold anything but the old document
or the verified new one; and the best-effort cleanup of the temporary and
backup files never changes the outcome or the final target content. -/
theorem persist_atomicity {α : Type} (old saved : α) (strip : α → α)
    (f : PersistFlags) :
    (f.saveOk = true → f.calcOk = true → f.verifyOk = false →
      (persistWorkbookAtomically old saved strip f).result = .error "verify_load" ∧
      (persistWorkbookAtomically old saved strip f).fs.target = old) ∧
    (f.saveOk = true → f.calcOk = true → f.verifyOk = true → f.backupOk = true →
      f.renameOk = false →
      (persistWorkbookAtomically old saved strip f).result = .error "atomic_rename" ∧
      (persistWorkbookAtomically old saved strip f).fs.target = old) ∧
    (f.saveOk = true → f.calcOk = true → f.verifyOk = true → f.backupOk = true →
      f.renameOk = true →
      (persistWorkbookAtomically old saved strip f).result = .ok ∧
      (persistWorkbookAtomically old saved strip f).fs.target = strip saved) ∧
    (∀ t ∈ (persistWorkbookAtomically old saved strip f).targetTrace,
      t = old ∨ (t = strip saved ∧ f.verifyOk = true)) ∧
    (∀ b1 b2 : Bool,
      (persistWorkbookAtomically old saved strip
        { f with cleanupTmpOk := b1, cleanupBackupOk := b2 }).result =
        (persistWorkbookAtomically old saved strip f).result ∧
      (persistWorkbookAtomically old saved strip
        { f with cleanupTmpOk := b1, cleanupBackupOk := b2 }).fs.target =
        (persistWorkbookAtomically old saved strip f).fs.target) := by
  obtain ⟨s, c, v, b, r, rs, t1, t2⟩ := f
  refine ⟨?_, ?_, ?_, ?_, ?_⟩
  · intro hs hc hv
    subst hs; subst hc; subst hv
    cases b <;> cases r <;> cases rs <;> cases t1 <;> cases t2 <;>
      simp [persistWorkbookAtomically, persistCleanup]
  · intro hs hc hv hb hr
    subst hs; subst hc; subst hv; subst hb; subst hr
    cases rs <;> cases t1 <;> cases t2 <;>
      simp [persistWorkbookAtomically, persistCleanup]
  · intro hs hc hv hb hr
    subst hs; subst hc; subst hv; subst hb; subst hr
    cases t1 <;> cases t2 <;> simp [persistWorkbookAtomically, persistCleanup]
  · intro t ht
    cases s <;> cases c <;> cases v <;> cases b <;> cases r <;> cases rs <;>
      simp_all [persistWorkbookAtomically, persistCleanup]
  · intro b1 b2
    cases s <;> cases c <;> cases v <;> cases b <;> cases r <;> cases rs <;>
      cases t1 <;> cases t2 <;> cases b1 <;> cases b2 <;>
      simp [persistWorkbookAtomically, persistCleanup]

/-- Witness for C1 at concrete inputs (`α := Nat`, `old = 1`, `saved = 2`,
`strip = id`). -/
theorem persist_atomicity_witness :
    ((persistWorkbookAtomically 1 2 id
        ⟨true, true, false, true, true, true, true, true⟩).result =
      .error "verify_load" ∧
     (persistWorkbookAtomically 1 2 id
        ⟨true, true, false, true, true, true, true, true⟩).fs.target = 1) ∧
    ((persistWorkbookAtomically 1 2 id
        ⟨true, true, true, true, false, true, true, true⟩).result =
      .error "atomic_rename" ∧
     (persistWorkbookAtomically 1 2 id
        ⟨true, true, true, true, false, true, true, true⟩).fs.target = 1) ∧
    ((persistWorkbookAtomically 1 2 id
        ⟨true, true, true, true, true, true, true, true⟩).result = .ok ∧
     (persistWorkbookAtomically 1 2 id
        ⟨true, true, true, true, true, true, true, true⟩).fs.target = 2) := by
  refine ⟨?_, ?_, ?_⟩
  · exact (persist_atomicity 1 2 id ⟨true, true, false, true, true, true, true, true⟩).1
      rfl rfl rfl
  · exact (persist_atomicity 1 2 id ⟨true, true, true, true, false, true, true, true⟩).2.1
      rfl rfl rfl rfl rfl
  · exact (persist_atomicity 1 2 id ⟨true, true, true, true, true, true, true, true⟩).2.2.1
      rfl rfl rfl rfl rfl

/-- C2: `_build_preflight_report` returns `safe_to_apply = false` iff a
`contains_formula` warning exists while strict mode is on and neither the
global allow flag nor that change's own force flag is set, or a
`referenced_by_formula` warning exists while `block_referenced_by_formula`
is set; `in_named_range` warnings never affect the outcome; and on the
concrete formula-cell document, a change with no force flag is blocked
while the same change with its force flag set is safe. -/
theorem build_preflight_report_blocking_policy :
    (∀ (w : List CellWarning) (s b a : Bool),
      ((buildPreflightReport w s b a).safe_to_apply = false ↔
        (∃ wr ∈ w, wr.warning_type = "contains_formula" ∧ s = true ∧
          wr.details.overwrite_allowed = false ∧ a = false) ∨
        (∃ wr ∈ w, wr.warning_type = "referenced_by_formula" ∧ b = true))) ∧
    (∀ (w : List CellWarning) (s b a : Bool),
      (buildPreflightReport
        (w.filter (fun wr => wr.warning_type != "in_named_range")) s b a).safe_to_apply =
        (buildPreflightReport w s b a).safe_to_apply) ∧
    (buildPreflightReport
      (collectPreflightWarnings formulaCellWb "Sheet1" [plainA1Change])
      true true false).safe_to_apply = false ∧
    (buildPreflightReport
      (collectPreflightWarnings formulaCellWb "Sheet1" [forcedA1Change])
      true true false).safe_to_apply = true := by
  refine ⟨?_, ?_, by decide, by decide⟩
  · intro w s b a
    rw [buildPreflightReport_safe_eq, Bool.not_eq_false']
    simp only [Bool.or_eq_true, List.any_eq_true, Bool.and_eq_true,
      beq_iff_eq, Bool.not_eq_true', Bool.or_eq_false_iff]
  · intro w s b a
    rw [buildPreflightReport_safe_eq, buildPreflightReport_safe_eq]
    rw [any_filter_of_imp, any_filter_of_imp]
    · intro x hx
      have h1 : x.warning_type = "referenced_by_formula" :=
        by simpa using (Bool.and_eq_true _ _ |>.mp hx).1
      simp [h1]
    · intro x hx
      have h1 : x.warning_type = "contains_formula" :=
        by simpa using (Bool.and_eq_true _ _ |>.mp hx).1
      simp [h1]

/-- Witness for C2: the general equivalence applied to a one-warning list. -/
theorem build_preflight_report_blocking_policy_witness :
    (buildPreflightReport
      [{ cell := ⟨"Sheet1", 1, 1, "A1"⟩, warning_type := "contains_formula"
         message := "", details := { overwrite_allowed := false } }]
      true true false).safe_to_apply = false := by
  refine ((build_preflight_report_blocking_policy.1 _ true true false).mpr ?_)
  exact Or.inl ⟨_, List.mem_singleton.mpr rfl, rfl, rfl, rfl, rfl⟩

theorem applyOneChange_of_skip (ws : Worksheet) (ch : CellChange) (f : Bool)
    (h : skipsChange ch = true) : applyOneChange ws ch f = (ws, 0) := by
  simp only [skipsChange, Bool.or_eq_true, decide_eq_true_eq] at h
  unfold applyOneChange
  rcases h with (h | h) | h
  · simp [h]
  · simp [h]
  · simp [h]

theorem skipsChange_false_parts (ch : CellChange) (h : skipsChange ch = false) :
    decide (ch.row < 1) = false ∧ decide (ch.col < 1) = false ∧
      (ch.value == PyVal.none) = false := by
  simp only [skipsChange, Bool.or_eq_false_iff] at h
  exact ⟨h.1.1, h.1.2, h.2⟩

theorem applyOneChange_of_fail (ws : Worksheet) (ch : CellChange)
    (h : skipsChange ch = false) : applyOneChange ws ch true = (ws, 0) := by
  obtain ⟨h1, h2, h3⟩ := skipsChange_false_parts ch h
  unfold applyOneChange
  simp [h1, h2, h3]

theorem applyOneChange_of_write (ws : Worksheet) (ch : CellChange)
    (h : skipsChange ch = false) :
    applyOneChange ws ch false =
      (ws.setCellValue ch.row.toNat ch.col.toNat
        (if ch.isFormula && isFormulaText ch.value then ch.value
         else coerceCellValue ch.value), 1) := by
  obtain ⟨h1, h2, h3⟩ := skipsChange_false_parts ch h
  unfold applyOneChange
  simp [h1, h2, h3]

theorem applyOneChange_count (ws : Worksheet) (ch : CellChange) (f : Bool) :
    (applyOneChange ws ch f).2 = if !skipsChange ch && !f then 1 else 0 := by
  cases hsk : skipsChange ch with
  | true => rw [applyOneChange_of_skip ws ch f hsk]; simp
  | false =>
    cases f with
    | true => rw [applyOneChange_of_fail ws ch hsk]; simp
    | false => rw [applyOneChange_of_write ws ch hsk]; simp

theorem applyWorksheetChangesAux_count (changes : List CellChange) :
    ∀ (ws : Worksheet) (fails : Nat → Bool) (i : Nat),
    (applyWorksheetChangesAux ws changes fails i).2 =
      ((List.range changes.length).filter (fun j =>
        !skipsChange (changes.getD j default) && !fails (i + j))).length := by
  induction changes with
  | nil => intro ws fails i; simp [applyWorksheetChangesAux]
  | cons ch rest ih =>
    intro ws fails i
    simp only [applyWorksheetChangesAux]
    rw [applyOneChange_count, ih]
    rw [List.length_cons, List.range_succ_eq_map, List.filter_cons]
    have harith : ∀ j : Nat, i + 1 + j = i + (j + 1) := by omega
    simp only [List.getD_cons_zero, Nat.add_zero, List.filter_map,
      List.length_map, Function.comp_def, List.getD_cons_succ, harith]
    cases hsk : skipsChange ch <;> cases hf : fails i <;> simp [Nat.add_comm]

/-- C6: `_apply_worksheet_changes` skips a change without error exactly
when its row or column is below 1 or its value is the empty/`None` value
(leaving the worksheet unchanged and not counting it); a per-change
failure is caught, writes nothing and is not counted, without aborting the
remaining changes; every other change writes its (possibly coerced) value
into its cell; and the returned count equals exactly the number of changes
for which a value was written. -/
theorem apply_worksheet_changes_contract :
    (∀ ch : CellChange, skipsChange ch = true ↔
      (ch.row < 1 ∨ ch.col < 1 ∨ ch.value = PyVal.none)) ∧
    (∀ (ws : Worksheet) (ch : CellChange) (f : Bool), skipsChange ch = true →
      applyOneChange ws ch f = (ws, 0)) ∧
    (∀ (ws : Worksheet) (ch : CellChange), skipsChange ch = false →
      applyOneChange ws ch true = (ws, 0)) ∧
    (∀ (ws : Worksheet) (ch : CellChange), skipsChange ch = false →
      applyOneChange ws ch false =
        (ws.setCellValue ch.row.toNat ch.col.toNat
          (if ch.isFormula && isFormulaText ch.value then ch.value
           else coerceCellValue ch.value), 1)) ∧
    (∀ (ws : Worksheet) (changes : List CellChange) (fails : Nat → Bool),
      (applyWorksheetChanges ws changes fails).2 =
        ((List.range changes.length).filter (fun j =>
          !skipsChange (changes.getD j default) && !fails j)).length) := by
  refine ⟨?_, applyOneChange_of_skip, applyOneChange_of_fail,
    applyOneChange_of_write, ?_⟩
  · intro ch
    simp [skipsChange, Bool.or_eq_true, beq_iff_eq]
    tauto
  · intro ws changes fails
    have h := applyWorksheetChangesAux_count changes ws fails 0
    simpa [applyWorksheetChanges] using h

/-- Witness for C6 at concrete inputs: an out-of-range change is skipped,
a `None`-valued change is skipped, a failing change is caught and not
counted, and the count over a mixed list is exactly the number of written
changes. -/
theorem apply_worksheet_changes_contract_witness :
    (applyOneChange ⟨"S", []⟩ ⟨0, 1, .int 7, false, false⟩ false = (⟨"S", []⟩, 0)) ∧
    (applyOneChange ⟨"S", []⟩ ⟨1, 1, .none, false, false⟩ false = (⟨"S", []⟩, 0)) ∧
    (applyOneChange ⟨"S", []⟩ ⟨1, 1, .int 7, false, false⟩ true = (⟨"S", []⟩, 0)) ∧
    (applyWorksheetChanges ⟨"S", []⟩
      [⟨1, 1, .int 7, false, false⟩, ⟨0, 1, .int 8, false, false⟩,
       ⟨1, 2, .none, false, false⟩, ⟨2, 2, .str "x", false, false⟩]
      (fun i => i == 3)).2 = 1 := by
  refine ⟨?_, ?_, ?_, ?_⟩
  · exact apply_worksheet_changes_contract.2.1 _ _ false (by decide)
  · exact apply_worksheet_changes_contract.2.1 _ _ false (by decide)
  · exact apply_worksheet_changes_contract.2.2.1 _ _ (by decide)
  · rw [apply_worksheet_changes_contract.2.2.2.2]; decide

/-- C7: `_coerce_cell_value` leaves non-strings untouched; a string whose
strip is empty is returned unchanged; a stripped string containing a
decimal point is stored as its `float` parse when that parse succeeds; a
stripped string without a decimal point is stored as its `int` parse when
that parse succeeds; when the attempted parse fails the original string is
stored unchanged; and a formula change (`isFormula` with a value starting
`=`) stores the raw text verbatim with no coercion. -/
theorem coerce_cell_value_policy :
    (∀ v : PyVal, (∀ s, v ≠ .str s) → coerceCellValue v = v) ∧
    (∀ s : String, pyStrip s = "" → coerceCellValue (.str s) = .str s) ∧
    (∀ (s : String) (q : PyFloat), pyStrip s ≠ "" →
      (pyStrip s).data.contains '.' = true → pyParseFloat (pyStrip s) = some q →
      coerceCellValue (.str s) = .float q) ∧
    (∀ s : String, pyStrip s ≠ "" → (pyStrip s).data.contains '.' = true →
      pyParseFloat (pyStrip s) = none → coerceCellValue (.str s) = .str s) ∧
    (∀ (s : String) (n : Int), pyStrip s ≠ "" →
      (pyStrip s).data.contains '.' = false → pyParseInt (pyStrip s) = some n →
      coerceCellValue (.str s) = .int n) ∧
    (∀ s : String, pyStrip s ≠ "" → (pyStrip s).data.contains '.' = false →
      pyParseInt (pyStrip s) = none → coerceCellValue (.str s) = .str s) ∧
    (∀ (ws : Worksheet) (ch : CellChange) (s : String), ch.isFormula = true →
      ch.value = .str s → pyStartsWith s "=" = true → skipsChange ch = false →
      applyOneChange ws ch false =
        (ws.setCellValue ch.row.toNat ch.col.toNat (.str s), 1)) := by
  refine ⟨?_, ?_, ?_, ?_, ?_, ?_, ?_⟩
  · intro v hv
    cases v with
    | str s => exact absurd rfl (hv s)
    | _ => rfl
  · intro s h; simp [coerceCellValue, h]
  · intro s q h1 h2 h3
    have h2' : '.' ∈ (pyStrip s).data := by simpa using h2
    simp [coerceCellValue, h1, h2', h3]
  · intro s h1 h2 h3
    have h2' : '.' ∈ (pyStrip s).data := by simpa using h2
    simp [coerceCellValue, h1, h2', h3]
  · intro s n h1 h2 h3
    have h2' : '.' ∉ (pyStrip s).data := by simpa using h2
    simp [coerceCellValue, h1, h2', h3]
  · intro s h1 h2 h3
    have h2' : '.' ∉ (pyStrip s).data := by simpa using h2
    simp [coerceCellValue, h1, h2', h3]
  · intro ws ch s hf hv hstart hskip
    rw [applyOneChange_of_write ws ch hskip]
    simp [hf, hv, isFormulaText, hstart]

/-- Witness for C7 at concrete strings: float, int, non-numeric, blank and
verbatim-formula cases. -/
theorem coerce_cell_value_policy_witness :
    coerceCellValue (.int 3) = .int 3 ∧
    coerceCellValue (.str " ") = .str " " ∧
    coerceCellValue (.str "1.5") = .float (.finite (mkRat 3 2)) ∧
    coerceCellValue (.str "1.5.2") = .str "1.5.2" ∧
    coerceCellValue (.str " 42 ") = .int 42 ∧
    coerceCellValue (.str "1e3") = .str "1e3" ∧
    applyOneChange ⟨"S", []⟩ ⟨1, 1, .str "=SUM(B1:B2)", true, false⟩ false =
      (⟨"S", [⟨1, 1, .str "=SUM(B1:B2)"⟩]⟩, 1) := by
  refine ⟨?_, ?_, ?_, ?_, ?_, ?_, ?_⟩
  · exact coerce_cell_value_policy.1 _ (by intro s; simp)
  · exact coerce_cell_value_policy.2.1 _ (by decide)
  · exact coerce_cell_value_policy.2.2.1 _ _ (by decide) (by decide) (by decide)
  · exact coerce_cell_value_policy.2.2.2.1 _ (by decide) (by decide) (by decide)
  · exact coerce_cell_value_policy.2.2.2.2.1 _ _ (by decide) (by decide) (by decide)
  · exact coerce_cell_value_policy.2.2.2.2.2.1 _ (by decide) (by decide) (by decide)
  · have h := coerce_cell_value_policy.2.2.2.2.2.2 ⟨"S", []⟩
      ⟨1, 1, .str "=SUM(B1:B2)", true, false⟩ "=SUM(B1:B2)"
      rfl rfl (by decide) (by decide)
    rw [h]; decide

/-- C8: `_build_qc_report` blocks iff some issue is critical, returns at
most 50 issues, and populates `recommendedActions` exactly when blocked,
in which case the checklist names the operation being retried. -/
theorem build_qc_report_contract :
    ∀ (issues : List ExcelQcIssue) (operation : String),
    ((buildQcReport issues operation).blocked = true ↔
      ∃ i ∈ issues, i.severity = "critical") ∧
    ((buildQcReport issues operation).issues.length ≤ 50) ∧
    ((buildQcReport issues operation).recommendedActions ≠ [] ↔
      (buildQcReport issues operation).blocked = true) ∧
    ((buildQcReport issues operation).blocked = true →
      ∃ act ∈ (buildQcReport issues operation).recommendedActions,
        operation.data <:+: act.data) := by
  intro issues operation
  have hblocked : (buildQcReport issues operation).blocked =
      decide (0 < (issues.filter (fun i => i.severity == "critical")).length) := rfl
  refine ⟨?_, ?_, ?_, ?_⟩
  · rw [hblocked]
    simp only [decide_eq_true_eq, List.length_pos]
    constructor
    · intro h
      obtain ⟨i, hi⟩ := List.exists_mem_of_ne_nil _ h
      exact ⟨i, (List.mem_filter.mp hi).1,
        by simpa using (List.mem_filter.mp hi).2⟩
    · rintro ⟨i, hmem, hcrit⟩
      intro hnil
      have : i ∈ issues.filter (fun i => i.severity == "critical") :=
        List.mem_filter.mpr ⟨hmem, by simpa using hcrit⟩
      simp [hnil] at this
  · have : (buildQcReport issues operation).issues = issues.take 50 := rfl
    rw [this, List.length_take]
    exact min_le_left _ _
  · cases hb : decide
      (0 < (issues.filter (fun i => i.severity == "critical")).length) with
    | true => simp [buildQcReport, hb, qcRecommendedActions]
    | false => simp [buildQcReport, hb]
  · intro hb
    have hact : (buildQcReport issues operation).recommendedActions =
        qcRecommendedActions operation := by
      rw [show (buildQcReport issues operation).recommendedActions =
        if (buildQcReport issues operation).blocked then
          qcRecommendedActions operation else [] from rfl, hb]
      rfl
    refine ⟨"Retry the " ++ operation ++
      " after correcting the workbook formulas.", ?_, ?_⟩
    · rw [hact]; simp [qcRecommendedActions]
    · exact ⟨"Retry the ".data,
        " after correcting the workbook formulas.".data,
        by simp [String.data_append]⟩

/-- Witness for C8: the equivalences applied to a concrete one-issue list. -/
theorem build_qc_report_contract_witness :
    (buildQcReport
      [{ sheet := "Sheet1", cell := "A1", severity := "critical"
         issueType := "unbalanced_parentheses"
         message := "Formula has unbalanced parentheses." }] "save").blocked = true ∧
    ∃ act ∈ (buildQcReport
      [{ sheet := "Sheet1", cell := "A1", severity := "critical"
         issueType := "unbalanced_parentheses"
         message := "Formula has unbalanced parentheses." }] "save").recommendedActions,
      "save".data <:+: act.data := by
  have hb := (build_qc_report_contract
    [{ sheet := "Sheet1", cell := "A1", severity := "critical"
       issueType := "unbalanced_parentheses"
       message := "Formula has unbalanced parentheses." }] "save").1.mpr
    ⟨_, List.mem_singleton.mpr rfl, rfl⟩
  exact ⟨hb, (build_qc_report_contract
    [{ sheet := "Sheet1", cell := "A1", severity := "critical"
       issueType := "unbalanced_parentheses"
       message := "Formula has unbalanced parentheses." }] "save").2.2.2 hb⟩

/-- A warning-severity issue used to pad the truncation example. -/
def padWarningIssue : ExcelQcIssue :=
  { sheet := "Sheet1", cell := "A1", severity := "warning"
    issueType := "auto_repaired_formula_prefix"
    message := "Auto-repaired malformed formula prefix." }

/-- A critical issue appearing only after the 50-issue truncation point. -/
def lateCriticalIssue : ExcelQcIssue :=
  { sheet := "Sheet1", cell := "B9", severity := "critical"
    issueType := "invalid_reference_token"
    message := "Formula contains an invalid Excel error token." }

/-- 51 issues whose only critical entry sits at position 51. -/
def issuesWithLateCritical : List ExcelQcIssue :=
  List.replicate 50 padWarningIssue ++ [lateCriticalIssue]

/-- C10: `criticalUnresolved` counts the critical issues of the whole
input list and `blocked` is decided over the whole list, while the
returned `issues` field is truncated to the first 50 — so a critical issue
beyond position 50 still blocks, and `criticalUnresolved` can exceed the
number of critical issues actually returned. -/
theorem qc_report_counts_full_list :
    (∀ (issues : List ExcelQcIssue) (operation : String),
      (buildQcReport issues operation).criticalUnresolved =
        (issues.filter (fun i => i.severity == "critical")).length ∧
      (buildQcReport issues operation).blocked =
        decide (0 < (issues.filter (fun i => i.severity == "critical")).length) ∧
      (buildQcReport issues operation).issues = issues.take 50) ∧
    ((buildQcReport issuesWithLateCritical "save").blocked = true ∧
     (buildQcReport issuesWithLateCritical "save").criticalUnresolved = 1 ∧
     (buildQcReport issuesWithLateCritical "save").issues.length = 50 ∧
     (buildQcReport issuesWithLateCritical "save").issues.filter
       (fun i => i.severity == "critical") = []) := by
  exact ⟨fun issues operation => ⟨rfl, rfl, rfl⟩, by decide, by decide,
    by decide, by decide⟩

/-- C9 counterexample: on the malformed sheet-qualified range
`"Sheet1!A1:B2:C3"` the function returns the range with the sheet
qualifier stripped, not the original string. -/
theorem expand_range_counterexample :
    expandRange "Sheet1!A1:B2:C3" = ["A1:B2:C3"] ∧
    expandRange "Sheet1!A1:B2:C3" ≠ ["Sheet1!A1:B2:C3"] := by decide

/-- C9 (amended): a well-formed rectangular range expands to the row-major
cross product of its corner cells; an input without `:` is returned as a
single-element list containing itself; and a malformed range is returned
as a single-element list holding the range with its sheet qualifier and
`$` markers removed (the original string only when it had neither). -/
theorem expand_range_amended :
    (∀ s : String, s.data.contains ':' = false → expandRange s = [s]) ∧
    (∀ s : String, s.data.contains ':' = true →
      expandRangeCore (strippedRange s) = none →
      expandRange s = [strippedRange s]) ∧
    (∀ (s : String) (a b : List Char) (sc ec : String) (sr er si ei : Nat),
      s.data.contains ':' = true →
      splitColon (strippedRange s).data = [a, b] →
      coordinateFromString (⟨a⟩ : String) = some (sc, sr) →
      coordinateFromString (⟨b⟩ : String) = some (ec, er) →
      columnIndexFromString sc = some si →
      columnIndexFromString ec = some ei →
      expandRange s =
        (List.range' sr (er + 1 - sr)).flatMap (fun r =>
          (List.range' si (ei + 1 - si)).map (fun c =>
            getColumnLetter c ++ toString r))) ∧
    (expandRange "A1:B2" = ["A1", "B1", "A2", "B2"] ∧
     (expandRange "A1:B2").Perm ["A1", "A2", "B1", "B2"] ∧
     expandRange "A1" = ["A1"] ∧
     expandRange "Sheet1!$A$1:B2" = ["A1", "B1", "A2", "B2"]) := by
  refine ⟨?_, ?_, ?_, by decide, by decide, by decide, by decide⟩
  · intro s h
    have h' : ':' ∉ s.data := by simpa using h
    simp [expandRange, h']
  · intro s h hcore
    have h' : ':' ∈ s.data := by simpa using h
    simp [expandRange, h', hcore]
  · intro s a b sc ec sr er si ei hc hsplit ha hb hsi hei
    have h' : ':' ∈ s.data := by simpa using hc
    simp [expandRange, h', expandRangeCore, hsplit, ha, hb, hsi, hei]

/-- Witness for C9 (amended) at concrete inputs, including an unqualified
malformed range that is returned verbatim. -/
theorem expand_range_amended_witness :
    expandRange "A1" = ["A1"] ∧
    expandRange "A1:ZZZZ9" = ["A1:ZZZZ9"] ∧
    expandRange "B1:A2" =
      (List.range' 1 (2 + 1 - 1)).flatMap (fun r =>
        (List.range' 2 (1 + 1 - 2)).map (fun c =>
          getColumnLetter c ++ toString r)) := by
  refine ⟨?_, ?_, ?_⟩
  · exact expand_range_amended.1 "A1" (by decide)
  · exact expand_range_amended.2.1 "A1:ZZZZ9" (by decide) (by decide)
  · exact expand_range_amended.2.2.1 "B1:A2" "B1".data "A2".data "B" "A" 1 2 2 1
      (by decide) (by decide) (by decide) (by decide) (by decide) (by decide)

/-! ## Lemmas about the double-equals repair -/

/-- Whether a cell holds formula text with the double-equals corruption
pattern (the condition under which the scan applies its one repair). -/
def isDoubleEqCell (c : Cell) : Bool :=
  match c.value with
  | .str v => pyStartsWith v "=="
  | _ => false

theorem dropWhile_head_false {α : Type} (p : α → Bool) :
    ∀ (l : List α) (c : α) (rest : List α), l.dropWhile p = c :: rest →
      p c = false := by
  intro l
  induction l with
  | nil => intro c rest h; simp [List.dropWhile] at h
  | cons x xs ih =>
    intro c rest h
    rw [List.dropWhile_cons] at h
    by_cases hx : p x = true
    · rw [if_pos hx] at h
      exact ih c rest h
    · rw [if_neg hx] at h
      obtain ⟨rfl, -⟩ := List.cons.injEq .. ▸ h
      exact Bool.eq_false_iff.mpr hx

theorem doubleEq_data (v : String) (h : pyStartsWith v "==" = true) :
    ∃ t, v.data = '=' :: '=' :: t := by
  have hp : "==".data <+: v.data := List.isPrefixOf_iff_prefix.mp h
  obtain ⟨t, ht⟩ := hp
  exact ⟨t, ht.symm⟩

theorem startsEq_of_doubleEq (v : String) (h : pyStartsWith v "==" = true) :
    pyStartsWith v "=" = true := by
  obtain ⟨t, ht⟩ := doubleEq_data v h
  apply List.isPrefixOf_iff_prefix.mpr
  rw [ht]
  exact ⟨'=' :: t, rfl⟩

theorem lstripEq_data (v : String) :
    (lstripEq v).data = v.data.dropWhile (fun c => c = '=') := rfl

theorem repaired_ne (v : String) (h : pyStartsWith v "==" = true) :
    "=" ++ lstripEq v ≠ v := by
  obtain ⟨t, ht⟩ := doubleEq_data v h
  intro heq
  have hdata : ('=' :: (lstripEq v).data) = v.data := by
    have := congrArg String.data heq
    simpa [String.data_append] using this
  have hdrop : (lstripEq v).data = t.dropWhile (fun c => c = '=') := by
    rw [lstripEq_data, ht]
    simp [List.dropWhile_cons]
  have hlen : ('=' :: (lstripEq v).data).length = v.data.length :=
    congrArg List.length hdata
  rw [ht] at hlen
  rw [hdrop] at hlen
  simp only [List.length_cons] at hlen
  have hle : (t.dropWhile (fun c => c = '=')).length ≤ t.length :=
    List.Sublist.length_le (List.dropWhile_sublist _)
  omega

theorem repaired_not_doubleEq (v : String) :
    pyStartsWith ("=" ++ lstripEq v) "==" = false := by
  cases hb : pyStartsWith ("=" ++ lstripEq v) "==" with
  | false => rfl
  | true =>
    exfalso
    have hp : "==".data <+: ("=" ++ lstripEq v).data :=
      List.isPrefixOf_iff_prefix.mp hb
    obtain ⟨t, ht⟩ := hp
    have hdata : ("=" ++ lstripEq v).data = '=' :: (lstripEq v).data := by
      simp [String.data_append]
    rw [hdata] at ht
    have ht' : '=' :: t = (lstripEq v).data := by
      have := ht
      simp only [List.cons_append, List.nil_append] at this
      exact (List.cons.injEq .. ▸ this).2
    have hhead := dropWhile_head_false (fun c => decide (c = '='))
      v.data '=' t (by rw [← lstripEq_data, ← ht'])
    simp at hhead

theorem countP_ite_singleton {α : Type} (p : α → Bool) (c : Prop)
    [Decidable c] (i : α) :
    (if c then [i] else []).countP p = if c ∧ p i = true then 1 else 0 := by
  by_cases hc : c <;> by_cases hp : p i = true <;>
    simp [hc, hp, List.countP_cons]

theorem countP_ite_nil_singleton {α : Type} (p : α → Bool) (c : Prop)
    [Decidable c] (i : α) :
    (if c then ([] : List α) else [i]).countP p =
      if c then 0 else (if p i = true then 1 else 0) := by
  by_cases hc : c <;> simp [hc, List.countP_cons]

theorem countP_flatMap {α β : Type} (l : List α) (f : α → List β)
    (p : β → Bool) :
    (l.flatMap f).countP p = (l.map (fun a => (f a).countP p)).sum := by
  induction l with
  | nil => simp
  | cons x xs ih => simp [List.flatMap_cons, List.countP_append, ih]

theorem sum_map_ite_eq_countP {α : Type} (l : List α) (p : α → Bool)
    (f : α → Nat) (h : ∀ x, f x = if p x then 1 else 0) :
    (l.map f).sum = l.countP p := by
  induction l with
  | nil => simp
  | cons x xs ih =>
    rw [List.map_cons, List.sum_cons, ih, List.countP_cons, h x]
    cases hp : p x <;> simp [hp, Nat.add_comm]

/-- The issue the scan emits when it repairs a double-equals prefix. -/
def autoRepairIssue (sn : String) (c : Cell) (v : String) : ExcelQcIssue :=
  { sheet := sn, cell := c.addr, severity := "warning"
    issueType := "auto_repaired_formula_prefix"
    message := "Auto-repaired malformed formula prefix."
    originalFormula := some v
    repairedFormula := some ("=" ++ lstripEq v) }

theorem qcFormulaCell_doubleEq_parts (sl : List String) (sn : String)
    (c : Cell) (v : String) (h : pyStartsWith v "==" = true) :
    (qcFormulaCell sl sn c v).2.2 = "=" ++ lstripEq v ∧
    (qcFormulaCell sl sn c v).2.1 = 1 ∧
    ((qcFormulaCell sl sn c v).1.countP
      (fun i => i.issueType == "auto_repaired_formula_prefix")) = 1 ∧
    autoRepairIssue sn c v ∈ (qcFormulaCell sl sn c v).1 ∧
    ((qcFormulaCell sl sn c v).1.countP
      (fun i => i.issueType == "unbalanced_parentheses")) =
      (if ("=" ++ lstripEq v).data.count '(' ≠ ("=" ++ lstripEq v).data.count ')'
       then 1 else 0) ∧
    ((qcFormulaCell sl sn c v).1.countP
      (fun i => i.issueType == "invalid_reference_token")) =
      (if containsInvalidToken ("=" ++ lstripEq v) then 1 else 0) ∧
    ((qcFormulaCell sl sn c v).1.countP
      (fun i => i.issueType == "missing_sheet_reference")) =
      (missingSheetsOf sl ("=" ++ lstripEq v)).length := by
  have hne := repaired_ne v h
  refine ⟨?_, ?_, ?_, ?_, ?_, ?_, ?_⟩ <;>
    simp [qcFormulaCell, h, hne, autoRepairIssue, List.countP_append,
      countP_ite_singleton, countP_ite_nil_singleton, List.countP_cons,
      List.countP_map, Function.comp_def]

theorem qcFormulaCell_noRepair_parts (sl : List String) (sn : String)
    (c : Cell) (v : String) (h : pyStartsWith v "==" = false) :
    (qcFormulaCell sl sn c v).2.2 = v ∧
    (qcFormulaCell sl sn c v).2.1 = 0 ∧
    ((qcFormulaCell sl sn c v).1.countP
      (fun i => i.issueType == "auto_repaired_formula_prefix")) = 0 := by
  refine ⟨?_, ?_, ?_⟩ <;>
    simp [qcFormulaCell, h, List.countP_append, countP_ite_singleton,
      countP_ite_nil_singleton, List.countP_cons, List.countP_map,
      Function.comp_def]

theorem qcCellStep_repairs (sl : List String) (sn : String) (c : Cell) :
    (qcCellStep sl sn c).2.1 = (if isDoubleEqCell c then 1 else 0) := by
  cases hv : c.value with
  | str v =>
    cases hd : pyStartsWith v "==" with
    | true =>
      have hs := startsEq_of_doubleEq v hd
      simp [qcCellStep, hv, hs, isDoubleEqCell,
        (qcFormulaCell_doubleEq_parts sl sn c v hd).2.1, hd]
    | false =>
      cases hs : pyStartsWith v "=" with
      | true =>
        simp [qcCellStep, hv, hs, isDoubleEqCell,
          (qcFormulaCell_noRepair_parts sl sn c v hd).2.1, hd]
      | false => simp [qcCellStep, hv, hs, isDoubleEqCell, hd]
  | _ => simp_all [qcCellStep, isDoubleEqCell]

theorem qcCellStep_autoCount (sl : List String) (sn : String) (c : Cell) :
    ((qcCellStep sl sn c).1.countP
      (fun i => i.issueType == "auto_repaired_formula_prefix")) =
      (if isDoubleEqCell c then 1 else 0) := by
  cases hv : c.value with
  | str v =>
    cases hd : pyStartsWith v "==" with
    | true =>
      have hs := startsEq_of_doubleEq v hd
      simp [qcCellStep, hv, hs, isDoubleEqCell,
        (qcFormulaCell_doubleEq_parts sl sn c v hd).2.2.1, hd]
    | false =>
      cases hs : pyStartsWith v "=" with
      | true =>
        simp [qcCellStep, hv, hs, isDoubleEqCell,
          (qcFormulaCell_noRepair_parts sl sn c v hd).2.2, hd]
      | false => simp [qcCellStep, hv, hs, isDoubleEqCell, hd]
  | _ => simp_all [qcCellStep, isDoubleEqCell]

theorem qcCellStep_result_not_doubleEq (sl : List String) (sn : String)
    (c : Cell) : isDoubleEqCell (qcCellStep sl sn c).2.2 = false := by
  cases hv : c.value with
  | str v =>
    cases hs : pyStartsWith v "=" with
    | true =>
      cases hd : pyStartsWith v "==" with
      | true =>
        have hfix := (qcFormulaCell_doubleEq_parts sl sn c v hd).1
        simp [qcCellStep, hv, hs, isDoubleEqCell, hfix,
          repaired_not_doubleEq v]
      | false =>
        have hfix := (qcFormulaCell_noRepair_parts sl sn c v hd).1
        simp [qcCellStep, hv, hs, isDoubleEqCell, hfix, hd]
    | false =>
      have hd : pyStartsWith v "==" = false := by
        cases hdd : pyStartsWith v "==" with
        | false => rfl
        | true => rw [startsEq_of_doubleEq v hdd] at hs; exact hs
      simp [qcCellStep, hv, hs, isDoubleEqCell, hd]
  | _ => simp_all [qcCellStep, isDoubleEqCell]

theorem qcSheet_issues (sl : List String) (ws : Worksheet) :
    (qcSheet sl ws).1 =
      ws.cells.flatMap (fun c => (qcCellStep sl ws.title c).1) := by
  rw [show (qcSheet sl ws).1 =
    (ws.cells.map (qcCellStep sl ws.title)).flatMap (fun r => r.1) from rfl]
  simp [List.flatMap_map, Function.comp_def]

theorem qcSheet_cells (sl : List String) (ws : Worksheet) :
    (qcSheet sl ws).2.2 =
      { ws with cells :=
          ws.cells.map (fun c => (qcCellStep sl ws.title c).2.2) } := by
  rw [show (qcSheet sl ws).2.2 = { ws with cells :=
    (ws.cells.map (qcCellStep sl ws.title)).map (fun r => r.2.2) } from rfl]
  rw [List.map_map]
  rfl

theorem qcSheet_repairs (sl : List String) (ws : Worksheet) :
    (qcSheet sl ws).2.1 = ws.cells.countP isDoubleEqCell := by
  rw [show (qcSheet sl ws).2.1 =
    ((ws.cells.map (qcCellStep sl ws.title)).map (fun r => r.2.1)).sum from rfl]
  rw [List.map_map]
  exact sum_map_ite_eq_countP _ _ _
    (fun c => qcCellStep_repairs sl ws.title c)

theorem qcSheet_autoCount (sl : List String) (ws : Worksheet) :
    ((qcSheet sl ws).1.countP
      (fun i => i.issueType == "auto_repaired_formula_prefix")) =
      ws.cells.countP isDoubleEqCell := by
  rw [qcSheet_issues, countP_flatMap]
  exact sum_map_ite_eq_countP _ _ _
    (fun c => qcCellStep_autoCount sl ws.title c)

theorem qcSheets_issues_aux (sl : List String) (sheets : List Worksheet) :
    ((sheets.map (qcSheet sl)).flatMap (fun r => r.1)) =
      sheets.flatMap (fun ws => ws.cells.flatMap (fun c =>
        (qcCellStep sl ws.title c).1)) := by
  induction sheets with
  | nil => rfl
  | cons ws rest ih =>
    simp only [List.map_cons, List.flatMap_cons, ih, qcSheet_issues]

theorem qcSheets_cells_aux (sl : List String) (sheets : List Worksheet) :
    (sheets.map (qcSheet sl)).map (fun r => r.2.2) =
      sheets.map (fun ws =>
        { ws with
          cells := ws.cells.map (fun c => (qcCellStep sl ws.title c).2.2) }) := by
  rw [List.map_map]
  apply List.map_congr_left
  intro ws _
  exact qcSheet_cells sl ws

theorem qcSheets_repairs_aux (sl : List String) (sheets : List Worksheet) :
    ((sheets.map (qcSheet sl)).map (fun r => r.2.1)).sum =
      (sheets.flatMap (fun ws => ws.cells)).countP isDoubleEqCell := by
  induction sheets with
  | nil => rfl
  | cons ws rest ih =>
    simp only [List.map_cons, List.sum_cons, List.flatMap_cons,
      List.countP_append, ih, qcSheet_repairs]

theorem qcSheets_autoCount_aux (sl : List String) (sheets : List Worksheet) :
    (((sheets.map (qcSheet sl)).flatMap (fun r => r.1)).countP
      (fun i => i.issueType == "auto_repaired_formula_prefix")) =
      (sheets.flatMap (fun ws => ws.cells)).countP isDoubleEqCell := by
  induction sheets with
  | nil => rfl
  | cons ws rest ih =>
    simp only [List.map_cons, List.flatMap_cons, List.countP_append, ih,
      qcSheet_autoCount]

theorem runFormulaQcAndRepairs_issues (wb : Workbook) :
    (runFormulaQcAndRepairs wb).1 =
      wb.sheets.flatMap (fun ws => ws.cells.flatMap (fun c =>
        (qcCellStep (wb.sheets.map (fun w => pyLower w.title)) ws.title c).1)) :=
  qcSheets_issues_aux _ _

theorem runFormulaQcAndRepairs_sheets (wb : Workbook) :
    (runFormulaQcAndRepairs wb).2.2.sheets =
      wb.sheets.map (fun ws =>
        { ws with cells := ws.cells.map (fun c =>
          (qcCellStep (wb.sheets.map (fun w => pyLower w.title)) ws.title c).2.2) }) :=
  qcSheets_cells_aux _ _

theorem runFormulaQcAndRepairs_repairs (wb : Workbook) :
    (runFormulaQcAndRepairs wb).2.1 =
      (wb.sheets.flatMap (fun ws => ws.cells)).countP isDoubleEqCell :=
  qcSheets_repairs_aux _ _

theorem runFormulaQcAndRepairs_autoCount (wb : Workbook) :
    ((runFormulaQcAndRepairs wb).1.countP
      (fun i => i.issueType == "auto_repaired_formula_prefix")) =
      (wb.sheets.flatMap (fun ws => ws.cells)).countP isDoubleEqCell :=
  qcSheets_autoCount_aux _ _

theorem second_scan_no_doubleEq (wb : Workbook) :
    ((runFormulaQcAndRepairs wb).2.2.sheets.flatMap
      (fun ws => ws.cells)).countP isDoubleEqCell = 0 := by
  apply List.countP_eq_zero.mpr
  intro c hc
  rw [runFormulaQcAndRepairs_sheets] at hc
  obtain ⟨ws', hws', hcell⟩ := List.mem_flatMap.mp hc
  obtain ⟨ws, hws, rfl⟩ := List.mem_map.mp hws'
  obtain ⟨c0, hc0, rfl⟩ := List.mem_map.mp hcell
  simp [qcCellStep_result_not_doubleEq]

/-- The workbook of the round-trip example: `A1` holds `==SUM(B1:B2)`. -/
def doubleEqWb : Workbook :=
  ⟨[⟨"Sheet1", [⟨1, 1, .str "==SUM(B1:B2)"⟩]⟩], []⟩

/-- C3: a formula starting with `==` is rewritten to a single leading `=`
(all leading `=` stripped, one re-prefixed), counted as exactly one
repair, reported by exactly one warning-severity
`auto_repaired_formula_prefix` issue carrying the original and repaired
text, with the parentheses / token / sheet-reference checks running on the
post-repair text; the whole-workbook scan is the concatenation of these
per-cell scans, its repair count is the number of double-equals cells, and
re-running the scan on the repaired document emits zero
`auto_repaired_formula_prefix` issues and zero repairs. -/
theorem double_equals_repair_round_trip :
    (∀ (sl : List String) (sn : String) (c : Cell) (v : String),
      pyStartsWith v "==" = true →
      (qcFormulaCell sl sn c v).2.2 = "=" ++ lstripEq v ∧
      (qcFormulaCell sl sn c v).2.1 = 1 ∧
      ((qcFormulaCell sl sn c v).1.countP
        (fun i => i.issueType == "auto_repaired_formula_prefix")) = 1 ∧
      autoRepairIssue sn c v ∈ (qcFormulaCell sl sn c v).1 ∧
      ((qcFormulaCell sl sn c v).1.countP
        (fun i => i.issueType == "unbalanced_parentheses")) =
        (if ("=" ++ lstripEq v).data.count '(' ≠
            ("=" ++ lstripEq v).data.count ')' then 1 else 0) ∧
      ((qcFormulaCell sl sn c v).1.countP
        (fun i => i.issueType == "invalid_reference_token")) =
        (if containsInvalidToken ("=" ++ lstripEq v) then 1 else 0) ∧
      ((qcFormulaCell sl sn c v).1.countP
        (fun i => i.issueType == "missing_sheet_reference")) =
        (missingSheetsOf sl ("=" ++ lstripEq v)).length) ∧
    (∀ wb : Workbook, (runFormulaQcAndRepairs wb).1 =
      wb.sheets.flatMap (fun ws => ws.cells.flatMap (fun c =>
        (qcCellStep (wb.sheets.map (fun w => pyLower w.title)) ws.title c).1))) ∧
    (∀ wb : Workbook, (runFormulaQcAndRepairs wb).2.1 =
      (wb.sheets.flatMap (fun ws => ws.cells)).countP isDoubleEqCell) ∧
    (∀ wb : Workbook,
      (runFormulaQcAndRepairs (runFormulaQcAndRepairs wb).2.2).2.1 = 0 ∧
      ((runFormulaQcAndRepairs (runFormulaQcAndRepairs wb).2.2).1.countP
        (fun i => i.issueType == "auto_repaired_formula_prefix")) = 0) ∧
    ((runFormulaQcAndRepairs doubleEqWb).1 =
      [autoRepairIssue "Sheet1" ⟨1, 1, .str "==SUM(B1:B2)"⟩ "==SUM(B1:B2)"] ∧
     (runFormulaQcAndRepairs doubleEqWb).2.1 = 1 ∧
     (runFormulaQcAndRepairs doubleEqWb).2.2 =
       ⟨[⟨"Sheet1", [⟨1, 1, .str "=SUM(B1:B2)"⟩]⟩], []⟩ ∧
     (runFormulaQcAndRepairs (runFormulaQcAndRepairs doubleEqWb).2.2).1 = [] ∧
     (runFormulaQcAndRepairs (runFormulaQcAndRepairs doubleEqWb).2.2).2.1 = 0) := by
  refine ⟨qcFormulaCell_doubleEq_parts, runFormulaQcAndRepairs_issues,
    runFormulaQcAndRepairs_repairs, ?_, by decide, by decide, by decide,
    by decide, by decide⟩
  intro wb
  constructor
  · rw [runFormulaQcAndRepairs_repairs]
    exact second_scan_no_doubleEq wb
  · rw [runFormulaQcAndRepairs_autoCount]
    exact second_scan_no_doubleEq wb

/-- Witness for C3: the per-cell conjunct applied to the concrete
double-equals formula. -/
theorem double_equals_repair_round_trip_witness :
    (qcFormulaCell ["sheet1"] "Sheet1" ⟨1, 1, .str "==SUM(B1:B2)"⟩
      "==SUM(B1:B2)").2.2 = "=" ++ lstripEq "==SUM(B1:B2)" ∧
    (qcFormulaCell ["sheet1"] "Sheet1" ⟨1, 1, .str "==SUM(B1:B2)"⟩
      "==SUM(B1:B2)").2.1 = 1 := by
  have h := double_equals_repair_round_trip.1 ["sheet1"] "Sheet1"
    ⟨1, 1, .str "==SUM(B1:B2)"⟩ "==SUM(B1:B2)" (by decide)
  exact ⟨h.1, h.2.1⟩

/-! ## Missing-sheet detection (C4) -/

theorem filter_ite_singleton {α : Type} (p : α → Bool) (c : Prop)
    [Decidable c] (i : α) (hp : p i = false) :
    (if c then [i] else []).filter p = [] := by
  by_cases hc : c <;> simp [hc, hp]

theorem filter_ite_nil_singleton {α : Type} (p : α → Bool) (c : Prop)
    [Decidable c] (i : α) (hp : p i = false) :
    (if c then ([] : List α) else [i]).filter p = [] := by
  by_cases hc : c <;> simp [hc, hp]

theorem pyStrLtChars_asymm :
    ∀ a b : List Char, pyStrLtChars a b = true → pyStrLtChars b a = false := by
  intro a
  induction a with
  | nil =>
    intro b h
    cases b with
    | nil => simp [pyStrLtChars] at h
    | cons y ys => simp [pyStrLtChars]
  | cons x xs ih =>
    intro b h
    cases b with
    | nil => simp [pyStrLtChars] at h
    | cons y ys =>
      rcases lt_trichotomy x y with h1 | h1 | h1
      · simp [pyStrLtChars, h1, lt_asymm h1]
      · subst h1
        simp only [pyStrLtChars, lt_irrefl, if_false] at h ⊢
        exact ih ys h
      · simp [pyStrLtChars, h1, lt_asymm h1] at h

theorem pyStrLtChars_connex :
    ∀ a c b : List Char, pyStrLtChars a c = true →
      pyStrLtChars a b = true ∨ pyStrLtChars b c = true := by
  intro a
  induction a with
  | nil =>
    intro c b h
    cases c with
    | nil => simp [pyStrLtChars] at h
    | cons z zs =>
      cases b with
      | nil => right; simp [pyStrLtChars]
      | cons y ys => left; simp [pyStrLtChars]
  | cons x xs ih =>
    intro c b h
    cases c with
    | nil => simp [pyStrLtChars] at h
    | cons z zs =>
      cases b with
      | nil => right; simp [pyStrLtChars]
      | cons y ys =>
        rcases lt_trichotomy x y with h1 | h1 | h1
        · left; simp [pyStrLtChars, h1]
        · subst h1
          rcases lt_trichotomy x z with h2 | h2 | h2
          · right; simp [pyStrLtChars, h2]
          · subst h2
            simp only [pyStrLtChars, lt_irrefl, if_false] at h ⊢
            exact ih zs ys h
          · simp [pyStrLtChars, h2, lt_asymm h2] at h
        · right
          rcases lt_trichotomy x z with h2 | h2 | h2
          · simp [pyStrLtChars, lt_trans h1 h2]
          · subst h2; simp [pyStrLtChars, h1]
          · simp [pyStrLtChars, h2, lt_asymm h2] at h

theorem pyStrLe_total :
    ∀ a b : String, pyStrLe a b = true ∨ pyStrLe b a = true := by
  intro a b
  by_cases h1 : pyStrLtChars b.data a.data = true
  · right
    unfold pyStrLe
    rw [pyStrLtChars_asymm _ _ h1]
    rfl
  · left
    unfold pyStrLe
    rw [Bool.eq_false_iff.mpr h1]
    rfl

theorem pyStrLe_trans :
    ∀ a b c : String, pyStrLe a b = true → pyStrLe b c = true →
      pyStrLe a c = true := by
  intro a b c hab hbc
  unfold pyStrLe at hab hbc ⊢
  rw [Bool.not_eq_true'] at hab hbc ⊢
  cases hca : pyStrLtChars c.data a.data with
  | false => rfl
  | true =>
    rcases pyStrLtChars_connex c.data a.data b.data hca with h | h
    · rw [h] at hbc; exact hbc
    · rw [h] at hab; exact hab

instance : IsTotal String (fun a b => pyStrLe a b = true) := ⟨pyStrLe_total⟩

instance : IsTrans String (fun a b => pyStrLe a b = true) := ⟨pyStrLe_trans⟩

theorem mem_pySortedSet (l : List String) (x : String) :
    x ∈ pySortedSet l ↔ x ∈ l := by
  unfold pySortedSet
  rw [(List.perm_insertionSort (fun a b => pyStrLe a b = true) l.dedup).mem_iff]
  exact List.mem_dedup

theorem pySortedSet_sorted (l : List String) :
    (pySortedSet l).Sorted (fun a b => pyStrLe a b = true) :=
  List.sorted_insertionSort (fun a b => pyStrLe a b = true) l.dedup

theorem pySortedSet_nodup (l : List String) : (pySortedSet l).Nodup :=
  (List.perm_insertionSort (fun a b => pyStrLe a b = true) l.dedup).nodup_iff.mpr
    (List.nodup_dedup l)

theorem missingSheetsOf_mem (sl : List String) (rf name : String) :
    name ∈ missingSheetsOf sl rf ↔
      ∃ ref ∈ parseCellReferencesFromFormula rf,
        ref.data.contains '!' = true ∧
        normalizeSheetName
          (⟨ref.data.takeWhile (fun ch => ch ≠ '!')⟩ : String) = name ∧
        sl.contains (pyLower name) = false := by
  unfold missingSheetsOf
  rw [mem_pySortedSet, List.mem_filterMap]
  constructor
  · rintro ⟨ref, href, hf⟩
    refine ⟨ref, href, ?_⟩
    by_cases hc : ref.data.contains '!' = true
    · rw [if_pos hc] at hf
      by_cases hsl : sl.contains
          (pyLower (normalizeSheetName
            (⟨ref.data.takeWhile (fun ch => ch ≠ '!')⟩ : String))) = true
      · rw [if_pos hsl] at hf
        exact absurd hf (by simp)
      · rw [if_neg hsl] at hf
        obtain rfl := Option.some.injEq .. ▸ hf
        exact ⟨hc, rfl, Bool.eq_false_iff.mpr hsl⟩
    · rw [if_neg hc] at hf
      exact absurd hf (by simp)
  · rintro ⟨ref, href, hc, hname, hsl⟩
    refine ⟨ref, href, ?_⟩
    have hc' : '!' ∈ ref.data := by simpa using hc
    have hsl' : pyLower name ∉ sl := by simpa using hsl
    have hfun : (fun ch : Char => decide (ch ≠ '!')) =
        (fun c : Char => !decide (c = '!')) := by
      funext ch; simp [decide_not]
    have hname' : normalizeSheetName
        (⟨ref.data.takeWhile (fun c => !decide (c = '!'))⟩ : String) = name := by
      rw [← hfun]; exact hname
    simp [hc', hname', hsl']

/-- Workbook whose only formula holds two distinct sheet-qualified
references (`'Missing Sheet'!B2` and `'MISSING SHEET'!C3`) to a sheet that
does not exist. -/
def missingSheetWb : Workbook :=
  ⟨[⟨"Sheet1", [⟨1, 1, .str "='Missing Sheet'!B2+'MISSING SHEET'!C3"⟩]⟩], []⟩

/-- C4 counterexample: the formula carries two *distinct* sheet-qualified
references whose sheet is missing, yet the scan emits a single
`missing_sheet_reference` issue (one per distinct *name*), and that
issue's message names the parser's upper-cased form `'MISSING SHEET'`,
never the original spelling `Missing Sheet` (the references are parsed
from the upper-cased formula). -/
theorem missing_sheet_counterexample :
    parseCellReferencesFromFormula "='Missing Sheet'!B2+'MISSING SHEET'!C3" =
      ["'MISSING SHEET'!B2", "'MISSING SHEET'!C3"] ∧
    ((runFormulaQcAndRepairs missingSheetWb).1.countP
      (fun i => i.issueType == "missing_sheet_reference")) = 1 ∧
    ((runFormulaQcAndRepairs missingSheetWb).1.map (fun i => i.message)) =
      ["Formula references a sheet that does not exist: 'MISSING SHEET'."] ∧
    ¬ ("Missing Sheet".data <:+:
        "Formula references a sheet that does not exist: 'MISSING SHEET'.".data) := by
  decide

/-- C4 (amended): for every formula cell the scan emits exactly one
critical `missing_sheet_reference` issue per *distinct missing sheet
name* — taken from the upper-cased formula text, quote-normalized — whose
lower-cased form matches no sheet of the document, the distinct names
appearing in sorted order, each issue's message naming the missing sheet
in that upper-cased, quote-normalized form; the example formula
`='Missing Sheet'!B2+1` yields one critical issue naming
`'MISSING SHEET'`. -/
theorem missing_sheet_detection_amended :
    (∀ (sl : List String) (sn : String) (c : Cell) (v : String),
      ((qcFormulaCell sl sn c v).1.filter
        (fun i => i.issueType == "missing_sheet_reference")) =
        (missingSheetsOf sl
          (if pyStartsWith v "==" then "=" ++ lstripEq v else v)).map
          (fun missingSheet =>
            { sheet := sn, cell := c.addr, severity := "critical"
              issueType := "missing_sheet_reference"
              message := "Formula references a sheet that does not exist: '" ++
                missingSheet ++ "'."
              originalFormula := some v
              repairedFormula :=
                if pyStartsWith v "==" then some ("=" ++ lstripEq v)
                else none : ExcelQcIssue })) ∧
    (∀ (sl : List String) (rf : String),
      (missingSheetsOf sl rf).Sorted (fun a b => pyStrLe a b = true) ∧
      (missingSheetsOf sl rf).Nodup) ∧
    (∀ (sl : List String) (rf name : String),
      name ∈ missingSheetsOf sl rf ↔
        ∃ ref ∈ parseCellReferencesFromFormula rf,
          ref.data.contains '!' = true ∧
          normalizeSheetName
            (⟨ref.data.takeWhile (fun ch => ch ≠ '!')⟩ : String) = name ∧
          sl.contains (pyLower name) = false) ∧
    ((runFormulaQcAndRepairs
      (⟨[⟨"Sheet1", [⟨1, 1, .str "='Missing Sheet'!B2+1"⟩]⟩], []⟩ : Workbook)).1.map
        (fun i => (i.severity, i.issueType, i.message))) =
      [("critical", "missing_sheet_reference",
        "Formula references a sheet that does not exist: 'MISSING SHEET'.")] := by
  refine ⟨?_, fun sl rf => ⟨pySortedSet_sorted _, pySortedSet_nodup _⟩,
    missingSheetsOf_mem, by decide⟩
  intro sl sn c v
  cases hd : pyStartsWith v "==" with
  | true =>
    have hne := repaired_ne v hd
    simp [qcFormulaCell, hd, hne, autoRepairIssue, List.filter_append,
      filter_ite_singleton, filter_ite_nil_singleton, List.filter_map,
      Function.comp_def]
  | false =>
    simp [qcFormulaCell, hd, List.filter_append, filter_ite_singleton,
      filter_ite_nil_singleton, List.filter_map, Function.comp_def]

/-! ## Referenced-by-formula detection (C5) -/

theorem dictInsert_keys (acc : List (String × CellChange)) (addr : String)
    (ch : CellChange) :
    (dictInsert acc addr ch).map (fun p => p.1) =
      if acc.any (fun p => p.1 == addr) then acc.map (fun p => p.1)
      else acc.map (fun p => p.1) ++ [addr] := by
  unfold dictInsert
  by_cases h : acc.any (fun p => p.1 == addr) = true
  · rw [if_pos h, if_pos h, List.map_map]
    apply List.map_congr_left
    intro p _
    by_cases hp : (p.1 == addr) = true
    · have hpe : p.1 = addr := by simpa using hp
      simp [hp, hpe]
    · have hpe : ¬p.1 = addr := by simpa using hp
      simp [hp, hpe]
  · rw [if_neg h, if_neg h]
    simp

theorem changingCells_keys_nodup (changes : List CellChange) :
    ((changingCellsOf changes).map (fun p => p.1)).Nodup := by
  suffices h : ∀ acc : List (String × CellChange),
      (acc.map (fun p => p.1)).Nodup →
      ((changes.foldl changingStep acc).map (fun p => p.1)).Nodup from
    h [] (by simp)
  induction changes with
  | nil => exact fun acc h => h
  | cons ch rest ih =>
    intro acc h
    rw [List.foldl_cons]
    apply ih
    unfold changingStep
    by_cases hrc : (decide (ch.row < 1) || decide (ch.col < 1)) = true
    · rw [if_pos hrc]; exact h
    · rw [if_neg hrc, dictInsert_keys]
      by_cases hany : acc.any (fun p =>
        p.1 == (getColumnLetter ch.col.toNat ++ toString ch.row.toNat)) = true
      · rw [if_pos hany]; exact h
      · rw [if_neg hany, List.nodup_append]
        refine ⟨h, List.nodup_singleton _, ?_⟩
        intro a ha hb
        have hae : a = getColumnLetter ch.col.toNat ++ toString ch.row.toNat := by
          simpa using hb
        subst hae
        obtain ⟨p, hp, hkey⟩ := List.mem_map.mp ha
        exact hany (List.any_eq_true.mpr ⟨p, hp, by simp [hkey]⟩)

theorem countP_filterMap_opt {α β : Type} (l : List α) (g : α → Option β)
    (p : β → Bool) :
    (l.filterMap g).countP p =
      l.countP (fun a => ((g a).map p).getD false) := by
  induction l with
  | nil => rfl
  | cons x xs ih =>
    cases hg : g x with
    | none => simp [List.filterMap_cons, hg, List.countP_cons, ih]
    | some b => simp [List.filterMap_cons, hg, List.countP_cons, ih]

theorem countP_congr_eq {α : Type} (l : List α) (p q : α → Bool)
    (h : ∀ a ∈ l, p a = q a) : l.countP p = l.countP q := by
  induction l with
  | nil => rfl
  | cons x xs ih =>
    rw [List.countP_cons, List.countP_cons, h x (List.mem_cons_self x xs),
      ih (fun a ha => h a (List.mem_cons_of_mem x ha))]

theorem countP_key_unique {β : Type} (cc : List (String × β))
    (p : String × β) (f : String × β → Bool)
    (hnodup : (cc.map (fun q => q.1)).Nodup) (hmem : p ∈ cc) :
    cc.countP (fun q => f q && q.1 == p.1) = if f p then 1 else 0 := by
  induction cc with
  | nil => cases hmem
  | cons x xs ih =>
    rw [List.map_cons, List.nodup_cons] at hnodup
    rcases List.mem_cons.mp hmem with heq | hmem'
    · subst heq
      rw [List.countP_cons]
      have hrest : xs.countP (fun q => f q && q.1 == p.1) = 0 := by
        apply List.countP_eq_zero.mpr
        intro q hq
        simp only [Bool.and_eq_true, beq_iff_eq, not_and]
        intro _ hkey
        exact absurd (hkey ▸ List.mem_map_of_mem (fun r => r.1) hq) hnodup.1
      rw [hrest]
      simp
    · have hxkey : (x.1 == p.1) = false := by
        apply beq_eq_false_iff_ne.mpr
        intro he
        exact hnodup.1 (he ▸ List.mem_map_of_mem (fun r => r.1) hmem')
      rw [List.countP_cons, ih hnodup.2 hmem', hxkey]
      simp

theorem check1Warnings_types (wb : Workbook) (sn : String)
    (cc : List (String × CellChange)) :
    ∀ w ∈ check1Warnings wb sn cc, w.warning_type = "contains_formula" := by
  intro w hw
  obtain ⟨p, hp, hg⟩ := List.mem_filterMap.mp hw
  split at hg
  · split at hg
    · injection hg with h
      subst h
      rfl
    · exact absurd hg (by simp)
  · exact absurd hg (by simp)

theorem check3Warnings_types (wb : Workbook) (sn : String)
    (cc : List (String × CellChange)) :
    ∀ w ∈ check3Warnings wb sn cc, w.warning_type = "in_named_range" := by
  intro w hw
  obtain ⟨dn, hdn, hw2⟩ := List.mem_flatMap.mp hw
  obtain ⟨dest, hdest, hw3⟩ := List.mem_flatMap.mp hw2
  revert hw3
  split
  · intro hw3
    obtain ⟨ea, hea, hg⟩ := List.mem_filterMap.mp hw3
    obtain ⟨q, -, hfq⟩ := Option.map_eq_some'.mp hg
    rw [← hfq]
  · intro hw3
    exact absurd hw3 (by simp)

/-- The final value of `referenced_by[addr]`: the entries of the check-2
traversal stream for that key, in traversal order. -/
def referencedBy (wb : Workbook) (sheetName : String)
    (changes : List CellChange) (addr : String) : List String :=
  ((referenceSources wb (pyLower (normalizeSheetName sheetName))
    ((changingCellsOf changes).map (fun q => q.1))).filter
      (fun q => q.1 == addr)).map (fun q => q.2)

theorem check2_countP (wb : Workbook) (sheetName : String)
    (changes : List CellChange) (p : String × CellChange)
    (hmem : p ∈ changingCellsOf changes) :
    ((check2Warnings wb sheetName (changingCellsOf changes)).countP
      (fun w => w.warning_type == "referenced_by_formula" &&
        w.cell.address == p.1)) =
      (if (referencedBy wb sheetName changes p.1).isEmpty then 0 else 1) := by
  unfold check2Warnings
  rw [countP_filterMap_opt]
  have hcongr : ∀ q ∈ changingCellsOf changes,
      ((((fun q : String × CellChange =>
        if (((referenceSources wb (pyLower (normalizeSheetName sheetName))
            ((changingCellsOf changes).map (fun r => r.1))).filter
            (fun r => r.1 == q.1)).map (fun r => r.2)).isEmpty then none
        else some (mkReferencedWarning sheetName q
          (((referenceSources wb (pyLower (normalizeSheetName sheetName))
            ((changingCellsOf changes).map (fun r => r.1))).filter
            (fun r => r.1 == q.1)).map (fun r => r.2)))) q).map
        (fun w => w.warning_type == "referenced_by_formula" &&
          w.cell.address == p.1)).getD false) =
      ((fun q : String × CellChange =>
        !(referencedBy wb sheetName changes q.1).isEmpty) q && q.1 == p.1) := by
    intro q _
    by_cases hq : (referencedBy wb sheetName changes q.1).isEmpty = true
    · simp only [referencedBy] at hq
      simp [hq, referencedBy]
    · simp only [referencedBy] at hq
      rw [Bool.not_eq_true] at hq
      simp [hq, referencedBy, mkReferencedWarning]
  refine (countP_congr_eq _ _ _ hcongr).trans ?_
  refine (countP_key_unique (changingCellsOf changes) p
    (fun q => !(referencedBy wb sheetName changes q.1).isEmpty)
    (changingCells_keys_nodup changes) hmem).trans ?_
  by_cases hp : (referencedBy wb sheetName changes p.1).isEmpty = true
  · simp [hp]
  · rw [Bool.not_eq_true] at hp
    simp [hp]

theorem check2_mem (wb : Workbook) (sheetName : String)
    (changes : List CellChange) (p : String × CellChange)
    (hmem : p ∈ changingCellsOf changes)
    (hne : (referencedBy wb sheetName changes p.1).isEmpty = false) :
    mkReferencedWarning sheetName p (referencedBy wb sheetName changes p.1) ∈
      check2Warnings wb sheetName (changingCellsOf changes) := by
  unfold check2Warnings
  apply List.mem_filterMap.mpr
  refine ⟨p, hmem, ?_⟩
  simp only [referencedBy] at hne
  simp [hne, referencedBy]

theorem mem_refHits (tn : String) (addrs : List String) (fws : Worksheet)
    (c : Cell) (ref : String) (pr : String × String) :
    pr ∈ refHits tn addrs fws c ref ↔
      pyLower (normalizeSheetName (splitSheetAndRange ref fws.title).1) = tn ∧
      ∃ ea ∈ expandRange (splitSheetAndRange ref fws.title).2,
        pr = (cleanAddr ea, sourceAddrOf tn fws c) ∧
        addrs.contains (cleanAddr ea) = true := by
  unfold refHits
  by_cases h : pyLower (normalizeSheetName (splitSheetAndRange ref fws.title).1) = tn
  · rw [if_pos (by simpa using h)]
    rw [List.mem_filterMap]
    constructor
    · rintro ⟨ea, hea, hg⟩
      refine ⟨h, ea, hea, ?_⟩
      revert hg
      split
      · intro hg
        injection hg with h2
        subst h2
        rename_i hcon
        exact ⟨rfl, hcon⟩
      · intro hg
        exact absurd hg (by simp)
    · rintro ⟨-, ea, hea, rfl, hcon⟩
      have hcon' : cleanAddr ea ∈ addrs := by simpa using hcon
      exact ⟨ea, hea, by simp [hcon']⟩
  · rw [if_neg (by simpa using h)]
    simp [h]

theorem mem_cellRefSources (tn : String) (addrs : List String)
    (fws : Worksheet) (c : Cell) (pr : String × String) :
    pr ∈ cellRefSources tn addrs fws c ↔
      ∃ v, c.value = PyVal.str v ∧ pyStartsWith v "=" = true ∧
        ∃ ref ∈ parseCellReferencesFromFormula v,
          pr ∈ refHits tn addrs fws c ref := by
  unfold cellRefSources
  cases hv : c.value with
  | str s =>
    by_cases hs : pyStartsWith s "=" = true
    · simp [hs, List.mem_flatMap]
    · simp [hs]
  | none => simp
  | int n => simp
  | float f => simp
  | bool b => simp

theorem mem_referenceSources (wb : Workbook) (tn : String)
    (addrs : List String) (pr : String × String) :
    pr ∈ referenceSources wb tn addrs ↔
      ∃ fws ∈ wb.sheets, ∃ c ∈ fws.cells,
        pr ∈ cellRefSources tn addrs fws c := by
  unfold referenceSources
  simp [List.mem_flatMap]

/-- Two-sheet workbook of the cross-sheet dependency example:
`Sheet1!A1 = 10` and `Sheet2!A1 = "=Sheet1!A1+1"`. -/
def crossSheetWb : Workbook :=
  ⟨[⟨"Sheet1", [⟨1, 1, .int 10⟩]⟩,
    ⟨"Sheet2", [⟨1, 1, .str "=Sheet1!A1+1"⟩]⟩], []⟩

/-- C5: each target address covered by at least one reference (after range
expansion, with case-insensitive quote-normalized sheet matching) gets
exactly one `referenced_by_formula` warning, whose `referenced_by` detail
is the deduplicated, lexicographically sorted source list truncated to 10
and whose `total_references` is the number of distinct sources
(cross-sheet sources carrying their sheet prefix); uncovered addresses get
none; and on the concrete two-sheet document the preflight on `Sheet1`
changing `A1` yields such a warning listing `Sheet2!A1`, which blocks
when `block_referenced_by_formula` is set. -/
theorem referenced_by_formula_detection :
    (∀ (wb : Workbook) (sheetName : String) (changes : List CellChange),
      ∀ p ∈ changingCellsOf changes,
        ((collectPreflightWarnings wb sheetName changes).countP
          (fun w => w.warning_type == "referenced_by_formula" &&
            w.cell.address == p.1)) =
          (if (referencedBy wb sheetName changes p.1).isEmpty then 0 else 1) ∧
        ((referencedBy wb sheetName changes p.1).isEmpty = false →
          mkReferencedWarning sheetName p
            (referencedBy wb sheetName changes p.1) ∈
            collectPreflightWarnings wb sheetName changes)) ∧
    (∀ (sn : String) (p : String × CellChange) (l : List String),
      (mkReferencedWarning sn p l).cell.address = p.1 ∧
      (mkReferencedWarning sn p l).warning_type = "referenced_by_formula" ∧
      (mkReferencedWarning sn p l).details.referenced_by =
        (pySortedSet l).take 10 ∧
      (mkReferencedWarning sn p l).details.total_references =
        (pySortedSet l).length ∧
      (pySortedSet l).Sorted (fun a b => pyStrLe a b = true) ∧
      (pySortedSet l).Nodup ∧ (∀ x, x ∈ pySortedSet l ↔ x ∈ l)) ∧
    (∀ (wb : Workbook) (tn : String) (addrs : List String)
        (pr : String × String),
      pr ∈ referenceSources wb tn addrs ↔
        ∃ fws ∈ wb.sheets, ∃ c ∈ fws.cells, ∃ v, c.value = PyVal.str v ∧
          pyStartsWith v "=" = true ∧
          ∃ ref ∈ parseCellReferencesFromFormula v,
            pyLower (normalizeSheetName
              (splitSheetAndRange ref fws.title).1) = tn ∧
            ∃ ea ∈ expandRange (splitSheetAndRange ref fws.title).2,
              pr = (cleanAddr ea, sourceAddrOf tn fws c) ∧
              addrs.contains (cleanAddr ea) = true) ∧
    (collectPreflightWarnings crossSheetWb "Sheet1" [plainA1Change] =
      [mkReferencedWarning "Sheet1" ("A1", plainA1Change) ["Sheet2!A1"]] ∧
     (mkReferencedWarning "Sheet1" ("A1", plainA1Change)
        ["Sheet2!A1"]).details.referenced_by = ["Sheet2!A1"] ∧
     (buildPreflightReport
       (collectPreflightWarnings crossSheetWb "Sheet1" [plainA1Change])
       true true false).safe_to_apply = false) := by
  refine ⟨?_, ?_, ?_, by decide, by decide, by decide⟩
  · intro wb sheetName changes p hmem
    constructor
    · unfold collectPreflightWarnings
      rw [List.countP_append, List.countP_append]
      rw [check2_countP wb sheetName changes p hmem]
      have h1 : (check1Warnings wb sheetName
          (changingCellsOf changes)).countP
          (fun w => w.warning_type == "referenced_by_formula" &&
            w.cell.address == p.1) = 0 := by
        apply List.countP_eq_zero.mpr
        intro w hw
        have ht := check1Warnings_types wb sheetName _ w hw
        simp [ht]
      have h3 : (check3Warnings wb sheetName
          (changingCellsOf changes)).countP
          (fun w => w.warning_type == "referenced_by_formula" &&
            w.cell.address == p.1) = 0 := by
        apply List.countP_eq_zero.mpr
        intro w hw
        have ht := check3Warnings_types wb sheetName _ w hw
        simp [ht]
      rw [h1, h3]
      omega
    · intro hne
      unfold collectPreflightWarnings
      exact List.mem_append.mpr (Or.inl (List.mem_append.mpr
        (Or.inr (check2_mem wb sheetName changes p hmem hne))))
  · intro sn p l
    exact ⟨rfl, rfl, rfl, rfl, pySortedSet_sorted l, pySortedSet_nodup l,
      fun x => mem_pySortedSet l x⟩
  · intro wb tn addrs pr
    rw [mem_referenceSources]
    constructor
    · rintro ⟨fws, hfws, c, hc, hcell⟩
      obtain ⟨v, hv, hs, ref, href, hhit⟩ :=
        (mem_cellRefSources tn addrs fws c pr).mp hcell
      obtain ⟨hsheet, ea, hea, hpr, hcon⟩ :=
        (mem_refHits tn addrs fws c ref pr).mp hhit
      exact ⟨fws, hfws, c, hc, v, hv, hs, ref, href, hsheet, ea, hea,
        hpr, hcon⟩
    · rintro ⟨fws, hfws, c, hc, v, hv, hs, ref, href, hsheet, ea, hea,
        hpr, hcon⟩
      refine ⟨fws, hfws, c, hc, ?_⟩
      apply (mem_cellRefSources tn addrs fws c pr).mpr
      exact ⟨v, hv, hs, ref, href,
        (mem_refHits tn addrs fws c ref pr).mpr ⟨hsheet, ea, hea, hpr, hcon⟩⟩

/-- Witness for C5: the counting conjunct applied to the concrete
cross-sheet document, where the target address is covered. -/
theorem referenced_by_formula_detection_witness :
    ((collectPreflightWarnings crossSheetWb "Sheet1" [plainA1Change]).countP
      (fun w => w.warning_type == "referenced_by_formula" &&
        w.cell.address == "A1")) = 1 ∧
    mkReferencedWarning "Sheet1" ("A1", plainA1Change)
      (referencedBy crossSheetWb "Sheet1" [plainA1Change] "A1") ∈
      collectPreflightWarnings crossSheetWb "Sheet1" [plainA1Change] := by
  have h := referenced_by_formula_detection.1 crossSheetWb "Sheet1"
    [plainA1Change] ("A1", plainA1Change) (by decide)
  exact ⟨h.1.trans (by decide), h.2 (by decide)⟩

end Excel
